import Mathlib

/-!
Verification of the rtmp live-streaming relay (Rust sources: `amf.rs`,
`stream.rs`, `server.rs`, `utils.rs`, `error.rs`, `constant.rs`).

The development is a shallow embedding:
* Rust byte buffers and `Cursor` readers become `List Nat` (each element a
  byte value `< 256`), with reader functions consuming a prefix and
  returning the rest of the list.
* `f64` and `i16` fields are carried as their bit patterns (a `Nat` below
  `2^64`, resp. `2^16`); the AMF codec only moves these patterns between
  byte strings and values, so no floating-point arithmetic is modelled.
* Rust `Result<T, Error>` becomes `Except Err T`; a Rust panic
  (`assert_eq!`, `unreachable!`, out-of-bounds `Vec::remove`, arithmetic
  overflow) is modelled by the distinguished error `Err.panicked`.
* `HashMap` becomes an association list with `alInsert` mirroring
  `HashMap::insert` (replace the existing binding or append).
* The mutually recursive AMF decoder takes an explicit fuel argument,
  decremented on every recursive call; `Err.outOfFuel` is an artifact of
  the embedding and the top-level entry point `decode_amf_message_run`
  supplies fuel `input.length + 1`, which the lemmas below show is always
  sufficient on the inputs they cover.
* `String::from_utf8(..).expect(..)` never fails on the byte strings the
  theorems exercise (they are either produced by encoding a Rust `String`
  or chosen ASCII), so the UTF-8 validity check is not modelled: a decoded
  string is its byte sequence.
-/

namespace Rtmp

/-- Error type mirroring `error.rs::Error`, with two embedding artifacts:
`panicked` models a Rust panic and `outOfFuel` models exhaustion of the
decoder fuel (never reached with the fuel supplied by the entry points). -/
inductive Err where
  | io
  | handshakeCorrupted
  | invalidTimestamp
  | unknownMessageTypeId (id : Nat)
  | nonStringCommand
  | unexpectedAmfObjectType
  | unknownDataMessage
  | unknownCommandMessage (cmd : List Nat)
  | inconsistentMessageLength
  | missingMediaStream
  | amf3NotSupported
  | amfIncorrectTypeMarker
  | amfIncorrectEndOfEcmaArray
  | panicked
  | outOfFuel
deriving Repr, DecidableEq

/-- Bytes of an ASCII string (all strings appearing in the sources are
ASCII, where code points coincide with UTF-8 bytes). -/
def ascii (s : String) : List Nat := s.data.map Char.toNat

/-! ### Byte utilities (`utils.rs`) -/

/-- `utils.rs::read_buffer`: read exactly `nbytes` bytes; `read_exact`
fails (an `Io` error) when fewer are available. -/
def read_buffer (nbytes : Nat) (l : List Nat) : Except Err (List Nat × List Nat) :=
  if nbytes ≤ l.length then .ok (l.take nbytes, l.drop nbytes) else .error .io

/-- Value of a big-endian byte string (`uN::from_be_bytes`). -/
def beVal (l : List Nat) : Nat := l.foldl (fun acc b => acc * 256 + b) 0

/-- `utils.rs::read_u8`. -/
def read_u8 (l : List Nat) : Except Err (Nat × List Nat) :=
  match l with
  | [] => .error .io
  | b :: rest => .ok (b, rest)

/-- `utils.rs::read_u16` (big-endian). -/
def read_u16 (l : List Nat) : Except Err (Nat × List Nat) :=
  match read_buffer 2 l with
  | .error e => .error e
  | .ok (buf, rest) => .ok (beVal buf, rest)

/-- `utils.rs::read_u32` (big-endian). -/
def read_u32 (l : List Nat) : Except Err (Nat × List Nat) :=
  match read_buffer 4 l with
  | .error e => .error e
  | .ok (buf, rest) => .ok (beVal buf, rest)

/-- `utils.rs::read_f64`: the 8-byte big-endian bit pattern of the double. -/
def read_f64 (l : List Nat) : Except Err (Nat × List Nat) :=
  match read_buffer 8 l with
  | .error e => .error e
  | .ok (buf, rest) => .ok (beVal buf, rest)

/-- `utils.rs::read_i16`: the 2-byte big-endian bit pattern of the `i16`. -/
def read_i16 (l : List Nat) : Except Err (Nat × List Nat) :=
  match read_buffer 2 l with
  | .error e => .error e
  | .ok (buf, rest) => .ok (beVal buf, rest)

/-- `utils.rs::aggregate` with `is_little_endian = false`: big-endian fold
`(sum << 8) | byte`.  On byte values (`< 256`) the shift-or equals
`sum * 256 + byte`; all call sites in the sources instantiate the generic
at a width the aggregated bytes cannot overflow, so no modular reduction
is needed. -/
def aggregateCombine (l : List Nat) : Nat :=
  match l with
  | [] => 0
  | b :: rest => rest.foldl (fun sum byte => sum * 256 + byte) b

/-- `utils.rs::aggregate`. -/
def aggregate (buffer : List Nat) (is_little_endian : Bool) : Nat :=
  if buffer.isEmpty then 0
  else if is_little_endian then aggregateCombine buffer.reverse
  else aggregateCombine buffer

/-- `utils.rs::read_numeric`: read `nbytes` bytes and aggregate big-endian. -/
def read_numeric (nbytes : Nat) (l : List Nat) : Except Err (Nat × List Nat) :=
  match read_buffer nbytes l with
  | .error e => .error e
  | .ok (buf, rest) => .ok (aggregate buf false, rest)

/-- `(n as u16).to_be_bytes()`. -/
def u16be (n : Nat) : List Nat := [n % 65536 / 256, n % 256]

/-- `(n as u32).to_be_bytes()`. -/
def u32be (n : Nat) : List Nat :=
  [n % 2 ^ 32 / 2 ^ 24, n / 2 ^ 16 % 256, n / 256 % 256, n % 256]

/-- `to_be_bytes()` of a 64-bit pattern. -/
def u64be (n : Nat) : List Nat :=
  [n % 2 ^ 64 / 2 ^ 56, n / 2 ^ 48 % 256, n / 2 ^ 40 % 256, n / 2 ^ 32 % 256,
   n / 2 ^ 24 % 256, n / 2 ^ 16 % 256, n / 256 % 256, n % 256]

/-! ### AMF-0 value model (`amf.rs`) -/

/-- `amf.rs::AmfObject`.  `Number` and the first component of `Date` carry
the `f64` bit pattern; `String` carries the UTF-8 bytes of the Rust
`String`; `Object` carries the `HashMap` as an association list. -/
inductive AmfObject where
  | number (bits : Nat)
  | boolean (b : Bool)
  | string (s : List Nat)
  | object (entries : List (List Nat × AmfObject))
  | null
  | undefined
  | reference (r : Nat)
  | ecmaArray (entries : List (List Nat × AmfObject))
  | strictArray (entries : List AmfObject)
  | date (millis : Nat) (tz : Nat)
deriving Repr

@[simp] def NUMBER_MARKER : Nat := 0x0
@[simp] def BOOLEAN_MARKER : Nat := 0x1
@[simp] def STRING_MARKER : Nat := 0x2
@[simp] def OBJECT_MARKER : Nat := 0x3
@[simp] def MOVIECLIP_MARKER : Nat := 0x4
@[simp] def NULL_MARKER : Nat := 0x5
@[simp] def UNDEFINED_MARKER : Nat := 0x6
@[simp] def REFERENCE_MARKER : Nat := 0x7
@[simp] def ECMA_ARRAY_MARKER : Nat := 0x8
@[simp] def OBJECT_END_MARKER : Nat := 0x9
@[simp] def STRICT_ARRAY_MARKER : Nat := 0xA
@[simp] def DATE_MARKER : Nat := 0xB

mutual

/-- `amf.rs::encode_amf_message_impl` (returns the bytes it appends). -/
def encode_amf_message_impl : AmfObject → List Nat
  | .number bits => NUMBER_MARKER :: u64be bits
  | .boolean b => [BOOLEAN_MARKER, if b then 1 else 0]
  | .string s => STRING_MARKER :: (u16be s.length ++ s)
  | .object entries =>
      OBJECT_MARKER :: (encode_amf_properties entries ++ [0, 0, OBJECT_END_MARKER])
  | .null => [NULL_MARKER]
  | .undefined => [UNDEFINED_MARKER]
  | .reference r => REFERENCE_MARKER :: u16be r
  | .ecmaArray entries =>
      ECMA_ARRAY_MARKER ::
        (u32be entries.length ++ encode_amf_properties entries ++ [0, 0, OBJECT_END_MARKER])
  | .strictArray entries =>
      STRICT_ARRAY_MARKER :: (u32be entries.length ++ encode_amf_values entries)
  | .date millis tz => DATE_MARKER :: (u64be millis ++ u16be tz)

/-- The `(key length, key bytes, value)` sequence written for `Object` and
`EcmaArray` bodies. -/
def encode_amf_properties : List (List Nat × AmfObject) → List Nat
  | [] => []
  | (k, v) :: rest => u16be k.length ++ k ++ encode_amf_message_impl v ++ encode_amf_properties rest

/-- Concatenated encodings of a value sequence. -/
def encode_amf_values : List AmfObject → List Nat
  | [] => []
  | v :: rest => encode_amf_message_impl v ++ encode_amf_values rest

end

/-- `amf.rs::encode_amf_messages`. -/
def encode_amf_messages (src : List AmfObject) : List Nat := encode_amf_values src

/-- `amf.rs::verify_type_marker`. -/
def verify_type_marker (expected : Nat) (input : List Nat) : Except Err (List Nat) :=
  match read_u8 input with
  | .error e => .error e
  | .ok (b, rest) => if b = expected then .ok rest else .error .amfIncorrectTypeMarker

/-- Skip the type marker check when `verify_marker` is false (the shared
prelude of every `decode_amf_*` function in `amf.rs`). -/
def maybe_verify_marker (verify_marker : Bool) (expected : Nat) (input : List Nat) :
    Except Err (List Nat) :=
  if verify_marker then verify_type_marker expected input else .ok input

/-- `amf.rs::decode_amf_number`. -/
def decode_amf_number (verify_marker : Bool) (input : List Nat) :
    Except Err (Nat × List Nat) :=
  match maybe_verify_marker verify_marker NUMBER_MARKER input with
  | .error e => .error e
  | .ok input => read_f64 input

/-- `amf.rs::decode_amf_boolean` (`!= 0`). -/
def decode_amf_boolean (verify_marker : Bool) (input : List Nat) :
    Except Err (Bool × List Nat) :=
  match maybe_verify_marker verify_marker BOOLEAN_MARKER input with
  | .error e => .error e
  | .ok input =>
    match read_u8 input with
    | .error e => .error e
    | .ok (b, rest) => .ok (b ≠ 0, rest)

/-- `amf.rs::decode_amf_string` (the UTF-8 validity `expect` is not
modelled; see the module comment). -/
def decode_amf_string (verify_marker : Bool) (input : List Nat) :
    Except Err (List Nat × List Nat) :=
  match maybe_verify_marker verify_marker STRING_MARKER input with
  | .error e => .error e
  | .ok input =>
    match read_u16 input with
    | .error e => .error e
    | .ok (size, input) => read_buffer size input

/-- `amf.rs::decode_amf_null`. -/
def decode_amf_null (verify_marker : Bool) (input : List Nat) :
    Except Err (Unit × List Nat) :=
  match maybe_verify_marker verify_marker NULL_MARKER input with
  | .error e => .error e
  | .ok input => .ok ((), input)

/-- `amf.rs::decode_amf_reference`. -/
def decode_amf_reference (verify_marker : Bool) (input : List Nat) :
    Except Err (Nat × List Nat) :=
  match maybe_verify_marker verify_marker REFERENCE_MARKER input with
  | .error e => .error e
  | .ok input => read_u16 input

/-- `amf.rs::decode_amf_date`. -/
def decode_amf_date (verify_marker : Bool) (input : List Nat) :
    Except Err ((Nat × Nat) × List Nat) :=
  match maybe_verify_marker verify_marker DATE_MARKER input with
  | .error e => .error e
  | .ok input =>
    match read_f64 input with
    | .error e => .error e
    | .ok (d, input) =>
      match read_i16 input with
      | .error e => .error e
      | .ok (t, input) => .ok ((d, t), input)

/-- `HashMap::insert` on the association-list model: replace the first
binding of the key, or append a new binding. -/
def alInsert {κ β : Type} [DecidableEq κ] (map : List (κ × β)) (k : κ) (v : β) :
    List (κ × β) :=
  match map with
  | [] => [(k, v)]
  | (k', v') :: rest => if k' = k then (k, v) :: rest else (k', v') :: alInsert rest k v

/-- Association-list lookup (`HashMap::get`). -/
def alLookup {κ β : Type} [DecidableEq κ] (map : List (κ × β)) (k : κ) : Option β :=
  match map with
  | [] => none
  | (k', v') :: rest => if k' = k then some v' else alLookup rest k

/-- `HashMap::remove` (dropping the returned value). -/
def alErase {κ β : Type} [DecidableEq κ] (map : List (κ × β)) (k : κ) :
    List (κ × β) :=
  match map with
  | [] => []
  | (k', v') :: rest => if k' = k then rest else (k', v') :: alErase rest k

mutual

/-- `amf.rs::decode_amf_message`: dispatch on the one-byte type marker.
`MOVIECLIP_MARKER` and a bare `OBJECT_END_MARKER` hit `unreachable!`
(modelled as `panicked`). -/
def decode_amf_message : Nat → List Nat → Except Err (AmfObject × List Nat)
  | 0, _ => .error .outOfFuel
  | fuel + 1, input =>
    match read_u8 input with
    | .error e => .error e
    | .ok (marker, input) =>
      if marker = NUMBER_MARKER then
        match read_f64 input with
        | .error e => .error e
        | .ok (x, input) => .ok (.number x, input)
      else if marker = BOOLEAN_MARKER then
        match read_u8 input with
        | .error e => .error e
        | .ok (b, input) => .ok (.boolean (b ≠ 0), input)
      else if marker = STRING_MARKER then
        match decode_amf_string false input with
        | .error e => .error e
        | .ok (s, input) => .ok (.string s, input)
      else if marker = MOVIECLIP_MARKER then .error .panicked
      else if marker = OBJECT_MARKER then
        match decode_amf_object fuel false input with
        | .error e => .error e
        | .ok (m, input) => .ok (.object m, input)
      else if marker = NULL_MARKER then .ok (.null, input)
      else if marker = UNDEFINED_MARKER then .ok (.undefined, input)
      else if marker = REFERENCE_MARKER then
        match read_u16 input with
        | .error e => .error e
        | .ok (r, input) => .ok (.reference r, input)
      else if marker = ECMA_ARRAY_MARKER then
        match decode_amf_ecma_array fuel false input with
        | .error e => .error e
        | .ok (v, input) => .ok (.ecmaArray v, input)
      else if marker = OBJECT_END_MARKER then .error .panicked
      else if marker = STRICT_ARRAY_MARKER then
        match decode_amf_strict_array fuel false input with
        | .error e => .error e
        | .ok (v, input) => .ok (.strictArray v, input)
      else if marker = DATE_MARKER then
        match read_f64 input with
        | .error e => .error e
        | .ok (d, input) =>
          match read_i16 input with
          | .error e => .error e
          | .ok (t, input) => .ok (.date d t, input)
      else .error .amfIncorrectTypeMarker

/-- `amf.rs::decode_amf_object_property`: a 2-byte name length (0 signals
the object-end sequence and yields `none` without reading further),
the name bytes, then a recursively decoded value. -/
def decode_amf_object_property :
    Nat → List Nat → Except Err (Option (List Nat × AmfObject) × List Nat)
  | 0, _ => .error .outOfFuel
  | fuel + 1, input =>
    match read_u16 input with
    | .error e => .error e
    | .ok (str_size, input) =>
      if str_size = 0 then .ok (none, input)
      else
        match read_buffer str_size input with
        | .error e => .error e
        | .ok (name, input) =>
          match decode_amf_message fuel input with
          | .error e => .error e
          | .ok (v, input) => .ok (some (name, v), input)

/-- `amf.rs::decode_amf_object`. -/
def decode_amf_object (fuel : Nat) (verify_marker : Bool) (input : List Nat) :
    Except Err (List (List Nat × AmfObject) × List Nat) :=
  match fuel with
  | 0 => .error .outOfFuel
  | fuel + 1 =>
    match maybe_verify_marker verify_marker OBJECT_MARKER input with
    | .error e => .error e
    | .ok input => decode_amf_object_loop fuel [] input

/-- The `loop` of `decode_amf_object`: insert properties into the map until
a zero-length name, then require the `OBJECT_END_MARKER`. -/
def decode_amf_object_loop :
    Nat → List (List Nat × AmfObject) → List Nat →
      Except Err (List (List Nat × AmfObject) × List Nat)
  | 0, _, _ => .error .outOfFuel
  | fuel + 1, map, input =>
    match decode_amf_object_property fuel input with
    | .error e => .error e
    | .ok (some (k, v), input) => decode_amf_object_loop fuel (alInsert map k v) input
    | .ok (none, input) =>
      match verify_type_marker OBJECT_END_MARKER input with
      | .error e => .error e
      | .ok input => .ok (map, input)

/-- `amf.rs::decode_amf_ecma_array`: read the 4-byte count, run the count
loop, then require one empty-name property and the `OBJECT_END_MARKER`;
a further non-empty property is `AmfIncorrectEndOfEcmaArray`. -/
def decode_amf_ecma_array (fuel : Nat) (verify_marker : Bool) (input : List Nat) :
    Except Err (List (List Nat × AmfObject) × List Nat) :=
  match fuel with
  | 0 => .error .outOfFuel
  | fuel + 1 =>
    match maybe_verify_marker verify_marker ECMA_ARRAY_MARKER input with
    | .error e => .error e
    | .ok input =>
      match read_u32 input with
      | .error e => .error e
      | .ok (count, input) =>
        match decode_amf_ecma_loop fuel count [] input with
        | .error e => .error e
        | .ok (result, input) =>
          match decode_amf_object_property fuel input with
          | .error e => .error e
          | .ok (some _, _) => .error .amfIncorrectEndOfEcmaArray
          | .ok (none, input) =>
            match verify_type_marker OBJECT_END_MARKER input with
            | .error e => .error e
            | .ok input => .ok (result, input)

/-- The `for _ in 0..count` loop of `decode_amf_ecma_array`: each iteration
reads one property; an empty-name read is skipped without being pushed. -/
def decode_amf_ecma_loop :
    Nat → Nat → List (List Nat × AmfObject) → List Nat →
      Except Err (List (List Nat × AmfObject) × List Nat)
  | 0, _, _, _ => .error .outOfFuel
  | _ + 1, 0, acc, input => .ok (acc, input)
  | fuel + 1, count + 1, acc, input =>
    match decode_amf_object_property fuel input with
    | .error e => .error e
    | .ok (some kv, input) => decode_amf_ecma_loop fuel count (acc ++ [kv]) input
    | .ok (none, input) => decode_amf_ecma_loop fuel count acc input

/-- `amf.rs::decode_amf_strict_array`. -/
def decode_amf_strict_array (fuel : Nat) (verify_marker : Bool) (input : List Nat) :
    Except Err (List AmfObject × List Nat) :=
  match fuel with
  | 0 => .error .outOfFuel
  | fuel + 1 =>
    match maybe_verify_marker verify_marker STRICT_ARRAY_MARKER input with
    | .error e => .error e
    | .ok input =>
      match read_u32 input with
      | .error e => .error e
      | .ok (count, input) => decode_amf_strict_loop fuel count [] input

/-- The `(0..count).map(|_| decode_amf_message)` collection loop of
`decode_amf_strict_array`. -/
def decode_amf_strict_loop :
    Nat → Nat → List AmfObject → List Nat → Except Err (List AmfObject × List Nat)
  | 0, _, _, _ => .error .outOfFuel
  | _ + 1, 0, acc, input => .ok (acc, input)
  | fuel + 1, count + 1, acc, input =>
    match decode_amf_message fuel input with
    | .error e => .error e
    | .ok (v, input) => decode_amf_strict_loop fuel count (acc ++ [v]) input

end

/-- Entry point: `decode_amf_message` with sufficient fuel (every recursive
call of the decoder follows the consumption of at least one input byte, so
`input.length + 1` levels can never be exhausted on the runs the theorems
below describe). -/
def decode_amf_message_run (input : List Nat) : Except Err (AmfObject × List Nat) :=
  decode_amf_message (input.length + 1) input

/-- Entry point for `decode_amf_ecma_array` with the same fuel convention. -/
def decode_amf_ecma_array_run (verify_marker : Bool) (input : List Nat) :
    Except Err (List (List Nat × AmfObject) × List Nat) :=
  decode_amf_ecma_array (input.length + 1) verify_marker input

/-- All bytes of a buffer are byte values. -/
def bytesOk (l : List Nat) : Bool := l.all (· < 256)

/-- No key of the association list occurs again further down (the
`HashMap` key-uniqueness invariant). -/
def distinctKeys {κ β : Type} [DecidableEq κ] : List (κ × β) → Bool
  | [] => true
  | (k, _) :: rest => (alLookup rest k).isNone && distinctKeys rest

mutual

/-- Well-formedness of an AMF value as constructed by the Rust program:
bit patterns fit their width, strings and keys are genuine byte strings
shorter than `2^16`, `Object` keys are non-empty and (as `HashMap` keys)
pairwise distinct, array lengths fit `u32`. -/
def wfAmf : AmfObject → Bool
  | .number bits => bits < 2 ^ 64
  | .boolean _ => true
  | .string s => s.length < 65536 && bytesOk s
  | .object entries => distinctKeys entries && wfProps entries
  | .null => true
  | .undefined => true
  | .reference r => r < 65536
  | .ecmaArray entries => entries.length < 2 ^ 32 && wfProps entries
  | .strictArray entries => entries.length < 2 ^ 32 && wfValues entries
  | .date millis tz => millis < 2 ^ 64 && tz < 65536

/-- Well-formedness of object/ECMA properties: non-empty short byte-string
keys and well-formed values. -/
def wfProps : List (List Nat × AmfObject) → Bool
  | [] => true
  | (k, v) :: rest =>
    !k.isEmpty && k.length < 65536 && bytesOk k && wfAmf v && wfProps rest

/-- Well-formedness of a value list. -/
def wfValues : List AmfObject → Bool
  | [] => true
  | v :: rest => wfAmf v && wfValues rest

end

/-! ### Chunk stream layer (`stream.rs`) -/

/-- `stream.rs::ChunkBasicHeader`. -/
structure ChunkBasicHeader where
  chunk_stream_id : Nat
  chunk_type : Nat
deriving Repr, DecidableEq

/-- `stream.rs::ChunkMessageHeader`. -/
structure ChunkMessageHeader where
  timestamp : Nat
  message_length : Nat
  message_type_id : Nat
  message_stream_id : Nat
  timestamp_delta : Nat
deriving Repr, DecidableEq

/-- `ChunkMessageHeader::default()`. -/
def defaultHeader : ChunkMessageHeader := ⟨0, 0, 0, 0, 0⟩

/-- `stream.rs::Message`. -/
structure Message where
  header : ChunkMessageHeader
  message : List Nat
deriving Repr, DecidableEq

/-- The mutable state of `stream.rs::RtmpMessageStreamImpl`; the socket
itself is modelled by the input byte list threaded through the readers
(and, on the server side, by the outbox/`sent` logs). -/
structure RtmpMessageStream where
  channels : List (Nat × Message)
  prev_message_header : List (Nat × (ChunkMessageHeader × Nat))
  max_chunk_size_read : Nat
  max_chunk_size_write : Nat
deriving Repr, DecidableEq

/-- `RtmpMessageStreamImpl::new`: empty maps and chunk sizes 128. -/
def newMessageStream : RtmpMessageStream := ⟨[], [], 128, 128⟩

/-- `stream.rs::read_chunk_basic_header`.  `header >> 6` and
`header & 0b111111` on a byte are division and remainder by 64; the
`csid == 1` arm aggregates its two extra bytes with `read_numeric`, which
is big-endian, and adds 64 in `u16`: for aggregated values at or above
`0xFFC0` that addition overflows the `u16` (a panic in debug builds,
modelled as `Err.panicked` per this file's overflow convention).  The
`csid == 0` arm reads a single byte (at most 255), so its `u16` addition
cannot overflow. -/
def read_chunk_basic_header (input : List Nat) :
    Except Err (ChunkBasicHeader × List Nat) :=
  match read_numeric 1 input with
  | .error e => .error e
  | .ok (header, input) =>
    let chunk_type := header / 64
    let csid_field := header % 64
    if csid_field = 0 then
      match read_numeric 1 input with
      | .error e => .error e
      | .ok (b, input) => .ok (⟨64 + b, chunk_type⟩, input)
    else if csid_field = 1 then
      match read_numeric 2 input with
      | .error e => .error e
      | .ok (b, input) =>
        if 64 + b < 2 ^ 16 then .ok (⟨64 + b, chunk_type⟩, input)
        else .error .panicked
    else .ok (⟨csid_field, chunk_type⟩, input)

/-- `stream.rs::read_chunk_message_header`: expand a chunk header of type
`fmt` against the previously retained header of the same chunk stream.
The sizes `[11, 7, 3, 0]`, the byte slices and the `% 0xFFFFFF` timestamp
reduction mirror the source. -/
def read_chunk_message_header (s : RtmpMessageStream) (bh : ChunkBasicHeader)
    (input : List Nat) : Except Err (ChunkMessageHeader × List Nat) :=
  let stored := (alLookup s.prev_message_header bh.chunk_stream_id).getD (defaultHeader, 0)
  let mh := stored.1
  let prev_chunk_type := stored.2
  if bh.chunk_type = 3 then
    let mh := if prev_chunk_type = 0 then { mh with timestamp_delta := mh.timestamp } else mh
    .ok ({ mh with timestamp := (mh.timestamp + mh.timestamp_delta) % 0xFFFFFF }, input)
  else
    match read_buffer ([11, 7, 3, 0].getD bh.chunk_type 0) input with
    | .error e => .error e
    | .ok (buffer, input) =>
      let mh := if bh.chunk_type < 2 then
          { mh with message_length := aggregate ((buffer.drop 3).take 3) false,
                    message_type_id := buffer.getD 6 0 }
        else mh
      let mh := if bh.chunk_type = 0 then
          { mh with message_stream_id := aggregate ((buffer.drop 7).take 4) true }
        else mh
      let t := aggregate (buffer.take 3) false
      match (if t ≤ 0xFFFFFE then .ok (t, input)
             else if t = 0xFFFFFF then read_u32 input
             else .error .invalidTimestamp : Except Err (Nat × List Nat)) with
      | .error e => .error e
      | .ok (timestamp_or_delta, input) =>
        if bh.chunk_type = 0 then
          .ok ({ mh with timestamp := timestamp_or_delta, timestamp_delta := 0 }, input)
        else
          .ok ({ mh with timestamp_delta := timestamp_or_delta,
                         timestamp := (mh.timestamp + timestamp_or_delta) % 0xFFFFFF },
               input)

/-- `stream.rs::read_message`: read one chunk, append up to
`min(max_chunk_size_read, remaining)` payload bytes to the partial message
of the chunk stream, emit the message exactly when its payload length
equals the announced `message_length` (the subtraction is on `Nat`; in
Rust an underflow would panic, which no reachable state triggers). -/
def read_message (s : RtmpMessageStream) (input : List Nat) :
    Except Err (Option Message × RtmpMessageStream × List Nat) :=
  match read_chunk_basic_header input with
  | .error e => .error e
  | .ok (bh, input) =>
    match read_chunk_message_header s bh input with
    | .error e => .error e
    | .ok (mh, input) =>
      let stored := alLookup s.channels bh.chunk_stream_id
      let is_first_chunk := stored.isNone
      let msg := stored.getD ⟨mh, []⟩
      let buffer_size := min s.max_chunk_size_read (msg.header.message_length - msg.message.length)
      match read_buffer buffer_size input with
      | .error e => .error e
      | .ok (buf, input) =>
        let msg := { msg with message := msg.message ++ buf }
        let result_channels :=
          if msg.message.length = msg.header.message_length then
            (some msg, alErase s.channels bh.chunk_stream_id)
          else (none, alInsert s.channels bh.chunk_stream_id msg)
        let prev := if is_first_chunk then
            alInsert s.prev_message_header bh.chunk_stream_id (mh, bh.chunk_type)
          else s.prev_message_header
        .ok (result_channels.1,
             { s with channels := result_channels.2, prev_message_header := prev }, input)

/-- Iterated `read_message` calls (a harness over the source function,
collecting the per-call results). -/
def read_messages : Nat → RtmpMessageStream → List Nat →
    Except Err (List (Option Message) × RtmpMessageStream × List Nat)
  | 0, s, input => .ok ([], s, input)
  | n + 1, s, input =>
    match read_message s input with
    | .error e => .error e
    | .ok (r, s, input) =>
      match read_messages n s input with
      | .error e => .error e
      | .ok (rs, s, input) => .ok (r :: rs, s, input)

/-- `stream.rs::send_chunk_basic_header` (the bytes written).  `x | y` with
disjoint bit ranges is written as addition; `as u8` is `% 256`. -/
def send_chunk_basic_header (chunk_stream_id chunk_type : Nat) : List Nat :=
  if chunk_stream_id < 64 then
    [chunk_type * 64 % 256 + chunk_stream_id]
  else if chunk_stream_id < 320 then
    [chunk_type * 64 % 256 + 1, (chunk_stream_id - 64) % 256]
  else
    [chunk_type * 64 % 256, (chunk_stream_id - 64) / 256 % 256, (chunk_stream_id - 64) % 256]

/-! ### Session and fan-out engine (`server.rs`) -/

/-- One successful `send_message` call as observed by its receiving
connection: the arguments `server.rs` passes to `stream.rs::send_message`. -/
structure SentMessage where
  chunk_stream_id : Nat
  message_stream_id : Nat
  timestamp : Nat
  message_type_id : Nat
  message : List Nat
deriving Repr, DecidableEq

/-- `server.rs::RtmpClient`: a subscriber handle.  `write_fails`
abstracts the peer socket (writes to this client error out), `sent` logs
the successful sends. -/
structure RtmpClient where
  from_fd : Nat
  paused : Bool
  write_fails : Bool
  sent : List SentMessage
deriving Repr, DecidableEq

/-- `server.rs::RtmpMediaStream`. -/
structure RtmpMediaStream where
  clients : List RtmpClient
  metadata : Option Message
  published : Bool
deriving Repr, DecidableEq

/-- `RtmpMediaStream::default()`. -/
def emptyMediaStream : RtmpMediaStream := ⟨[], none, false⟩

/-- `server.rs::RtmpServer` together with the shared registry it holds:
`media_streams` is keyed by stream name bytes; `outbox` logs the sends on
the connection's own message stream (whose write errors are not modelled:
the theorems describe the runs in which the connection itself stays up). -/
structure RtmpServer where
  media_streams : List (List Nat × RtmpMediaStream)
  stream_name : List Nat
  from_fd : Nat
  outbox : List SentMessage
  max_chunk_size_write : Nat
deriving Repr, DecidableEq

/-- A best-effort write to a subscriber: `none` models an `Err` from
`send_message` on that client's socket. -/
def clientSend (c : RtmpClient) (m : SentMessage) : Option RtmpClient :=
  if c.write_fails then none else some { c with sent := c.sent ++ [m] }

/-- The removal pass of `RtmpMediaStream::broadcast`:
`offline.iter().for_each(|i| { self.clients.remove(*i); })`.  Each
`Vec::remove` uses an index collected before any removal; an out-of-range
index makes `Vec::remove` panic (`none` here). -/
def removeIndices (cs : List RtmpClient) : List Nat → Option (List RtmpClient)
  | [] => some cs
  | i :: rest => if i < cs.length then removeIndices (cs.eraseIdx i) rest else none

/-- `server.rs::RtmpMediaStream::broadcast`: skip paused clients, send to
the rest (csid 3, the message's stream id, the given timestamp and type),
collect the indices whose write failed, then remove those indices. -/
def RtmpMediaStream.broadcast (s : RtmpMediaStream) (timestamp : Nat) (type_id : Nat)
    (message : Message) : Except Err RtmpMediaStream :=
  let attempts := s.clients.enum.map (fun p =>
    if p.2.paused then (p.2, (none : Option Nat))
    else
      match clientSend p.2 ⟨3, message.header.message_stream_id, timestamp, type_id,
                            message.message⟩ with
      | some c => (c, none)
      | none => (p.2, some p.1))
  let clients := attempts.map Prod.fst
  let offline := attempts.filterMap Prod.snd
  match removeIndices clients offline with
  | some clients => .ok { s with clients := clients }
  | none => .error .panicked

/-- Bit pattern of `n as f64` (exact for `n < 2^53`; every conversion in
`server.rs` converts a `u32` or a small constant). -/
def natToF64Bits (n : Nat) : Nat :=
  if n = 0 then 0
  else (1023 + Nat.log2 n) * 2 ^ 52 + (n - 2 ^ Nat.log2 n) * 2 ^ (52 - Nat.log2 n)

/-- `f64` equality against `0.0` on bit patterns: exactly `+0.0` and
`-0.0` compare equal to zero. -/
def f64BitsIsZero (bits : Nat) : Bool := bits = 0 || bits = 0x8000000000000000

/-- `server.rs::RtmpServer::on_status`.  The `information` map is encoded
in insertion order (Rust's `HashMap` iteration order is unspecified; the
level/code bindings are the same). -/
def on_status (code : List Nat) (success : Bool) : List Nat :=
  let information : List (List Nat × AmfObject) :=
    [(ascii "level", .string (if success then ascii "status" else ascii "error")),
     (ascii "code", .string code)]
  encode_amf_messages [.string (ascii "onStatus"), .number 0, .null, .object information]

/-- `server.rs::handle_connect` (the `assert_eq!(transaction_id, 1_f64)`
panics unless the decoded bits are those of `1.0`; the five responses are
appended to the outbox in order). -/
def handle_connect (srv : RtmpServer) (reader : List Nat) : Except Err RtmpServer :=
  match decode_amf_number true reader with
  | .error e => .error e
  | .ok (transaction_id, reader) =>
    if transaction_id ≠ natToF64Bits 1 then .error .panicked
    else
      match decode_amf_object (reader.length + 1) true reader with
      | .error e => .error e
      | .ok (_cmd_object, _) =>
        let properties : List (List Nat × AmfObject) :=
          [(ascii "fmsVer", .string (ascii "FMS/4,5,0,297")),
           (ascii "capabilities", .number (natToF64Bits 255)),
           (ascii "mode", .number (natToF64Bits 1))]
        let information : List (List Nat × AmfObject) :=
          [(ascii "level", .string (ascii "status")),
           (ascii "code", .string (ascii "NetConnection.Connect.Success")),
           (ascii "objectEncoding", .number 0)]
        .ok { srv with outbox := srv.outbox ++
          [⟨2, 0, 0, 3, u32be 7122⟩,
           ⟨2, 0, 0, 5, u32be 1048576⟩,
           ⟨2, 0, 0, 6, u32be 1048576 ++ [2]⟩,
           ⟨2, 0, 0, 4, [0, 0, 0, 0, 0, 0]⟩,
           ⟨3, 0, 0, 20, encode_amf_messages
             [.string (ascii "_result"), .number (natToF64Bits 1),
              .object properties, .object information]⟩] }

/-- `server.rs::handle_release_stream`: decode and discard the arguments. -/
def handle_release_stream (srv : RtmpServer) (reader : List Nat) : Except Err RtmpServer :=
  match decode_amf_number true reader with
  | .error e => .error e
  | .ok (_, reader) =>
    match decode_amf_null true reader with
    | .error e => .error e
    | .ok (_, reader) =>
      match decode_amf_string true reader with
      | .error e => .error e
      | .ok (_, _) => .ok srv

/-- `server.rs::handle_create_stream`: `_result(tx, null, stream id as
Number)` when the command object is `Object` or `Null`. -/
def handle_create_stream (srv : RtmpServer) (reader : List Nat)
    (header : ChunkMessageHeader) : Except Err RtmpServer :=
  match decode_amf_number true reader with
  | .error e => .error e
  | .ok (transaction_id, reader) =>
    match decode_amf_message_run reader with
    | .error e => .error e
    | .ok (cmd_object, _) =>
      match cmd_object with
      | .object _ | .null =>
        .ok { srv with outbox := srv.outbox ++
          [⟨3, 0, 0, 20, encode_amf_messages
            [.string (ascii "_result"), .number transaction_id, .null,
             .number (natToF64Bits header.message_stream_id)]⟩] }
      | _ => .error .unexpectedAmfObjectType

/-- `server.rs::handle_play`: announce a large write chunk size, stream
begin, `Play.Reset`/`Play.Start`, the sample-access data message, replay
the cached metadata when present, then append a fresh subscriber handle
(`decouple` of the same socket) and record the stream name.  The trailing
`start`/`duration`/`reset` decodes only feed logging and are dropped. -/
def handle_play (srv : RtmpServer) (reader : List Nat) : Except Err RtmpServer :=
  match decode_amf_number true reader with
  | .error e => .error e
  | .ok (_transaction_id, reader) =>
    match decode_amf_null true reader with
    | .error e => .error e
    | .ok (_, reader) =>
      match decode_amf_string true reader with
      | .error e => .error e
      | .ok (stream_name, _reader) =>
        let srv := { srv with
          outbox := srv.outbox ++
            ([⟨2, 0, 0, 1, u32be 0x7FFFFFFF⟩,
              ⟨2, 0, 0, 4, [0, 0, 0, 0, 0, 0]⟩,
              ⟨3, 0, 0, 20, on_status (ascii "NetStream.Play.Reset") true⟩,
              ⟨3, 0, 0, 20, on_status (ascii "NetStream.Play.Start") true⟩,
              ⟨3, 0, 0, 18, encode_amf_messages
                [.string (ascii "|RtmpSampleAccess"), .boolean true, .boolean true]⟩] :
              List SentMessage),
          max_chunk_size_write := 0x7FFFFFFF }
        let entry := (alLookup srv.media_streams stream_name).getD emptyMediaStream
        let srv := match entry.metadata with
          | some metadata => { srv with outbox := srv.outbox ++
              ([⟨3, metadata.header.message_stream_id, metadata.header.timestamp, 18,
                 metadata.message⟩] : List SentMessage) }
          | none => srv
        let entry := { entry with clients := entry.clients ++
          ([⟨srv.from_fd, false, false, []⟩] : List RtmpClient) }
        .ok { srv with media_streams := alInsert srv.media_streams stream_name entry,
                       stream_name := stream_name }

/-- `server.rs::handle_seek` (`assert_eq!(transaction_id, 0_f64)`; seek is
refused with an error-level `onStatus`). -/
def handle_seek (srv : RtmpServer) (reader : List Nat) : Except Err RtmpServer :=
  match decode_amf_number true reader with
  | .error e => .error e
  | .ok (transaction_id, reader) =>
    if ¬ f64BitsIsZero transaction_id then .error .panicked
    else
      match decode_amf_null true reader with
      | .error e => .error e
      | .ok (_, reader) =>
        match decode_amf_number true reader with
        | .error e => .error e
        | .ok (_, _) =>
          .ok { srv with outbox := srv.outbox ++
            [⟨3, 0, 0, 20, on_status (ascii "NetStream.Seek.Notify") false⟩] }

/-- `server.rs::handle_pause`: flip the `paused` flag of this connection's
handles in its media stream, then acknowledge with `Pause.Notify`. -/
def handle_pause (srv : RtmpServer) (reader : List Nat) : Except Err RtmpServer :=
  match decode_amf_number true reader with
  | .error e => .error e
  | .ok (transaction_id, reader) =>
    if ¬ f64BitsIsZero transaction_id then .error .panicked
    else
      match decode_amf_null true reader with
      | .error e => .error e
      | .ok (_, reader) =>
        match decode_amf_boolean true reader with
        | .error e => .error e
        | .ok (pause, reader) =>
          match decode_amf_number true reader with
          | .error e => .error e
          | .ok (_pause_time, _) =>
            let srv : RtmpServer := match alLookup srv.media_streams srv.stream_name with
              | some ms =>
                let cs := ms.clients.map (fun (c : RtmpClient) =>
                  if c.from_fd = srv.from_fd then { c with paused := pause } else c)
                let ms : RtmpMediaStream := { ms with clients := cs }
                { srv with media_streams := alInsert srv.media_streams srv.stream_name ms }
              | none => srv
            .ok { srv with outbox := srv.outbox ++
              ([⟨3, 0, 0, 20, on_status (ascii "NetStream.Pause.Notify") true⟩] :
                List SentMessage) }

/-- `server.rs::handle_publish`: look up (or create) the media stream of
`publishing_name`; when it is already published answer
`NetStream.Publish.Denied`, otherwise mark it published and answer
`NetStream.Publish.Start` — in both branches `on_status` is called with
`success = true` and `stream_name` is overwritten afterwards. -/
def handle_publish (srv : RtmpServer) (reader : List Nat) : Except Err RtmpServer :=
  match decode_amf_number true reader with
  | .error e => .error e
  | .ok (_transaction_id, reader) =>
    match decode_amf_null true reader with
    | .error e => .error e
    | .ok (_, reader) =>
      match decode_amf_string true reader with
      | .error e => .error e
      | .ok (publishing_name, reader) =>
        match decode_amf_string true reader with
        | .error e => .error e
        | .ok (_publishing_type, _) =>
          let entry := (alLookup srv.media_streams publishing_name).getD emptyMediaStream
          let entry_code :=
            if entry.published then (entry, ascii "NetStream.Publish.Denied")
            else ({ entry with published := true }, ascii "NetStream.Publish.Start")
          .ok { srv with
            media_streams := alInsert srv.media_streams publishing_name entry_code.1,
            outbox := srv.outbox ++ [⟨3, 0, 0, 20, on_status entry_code.2 true⟩],
            stream_name := publishing_name }

/-- `server.rs::handle_delete_stream`: remove the registry entry of this
connection's `stream_name`, whatever the arguments and whatever the
connection's relation to the stream. -/
def handle_delete_stream (srv : RtmpServer) (_reader : List Nat) : Except Err RtmpServer :=
  .ok { srv with media_streams := alErase srv.media_streams srv.stream_name }

/-- `server.rs::handle_get_stream_length`
(`assert_eq!(transaction_id, 3_f64)`; no response). -/
def handle_get_stream_length (srv : RtmpServer) (reader : List Nat) : Except Err RtmpServer :=
  match decode_amf_number true reader with
  | .error e => .error e
  | .ok (transaction_id, reader) =>
    if transaction_id ≠ natToF64Bits 3 then .error .panicked
    else
      match decode_amf_null true reader with
      | .error e => .error e
      | .ok (_, reader) =>
        match decode_amf_string true reader with
        | .error e => .error e
        | .ok (_, _) => .ok srv

/-- `server.rs::RtmpServer::broadcast`: look up this connection's media
stream (`MissingMediaStream` when absent) and fan the message out. -/
def RtmpServer.broadcast (srv : RtmpServer) (timestamp : Nat) (type_id : Nat)
    (message : Message) : Except Err RtmpServer :=
  match alLookup srv.media_streams srv.stream_name with
  | none => .error .missingMediaStream
  | some s =>
    match s.broadcast timestamp type_id message with
    | .error e => .error e
    | .ok s => .ok { srv with media_streams := alInsert srv.media_streams srv.stream_name s }

/-- `server.rs::handle_data_message`: require the `@setDataFrame` /
`onMetaData` wrapper strings and a decodable ECMA array, broadcast the
*original* message bytes with timestamp 0 and type 18, then store the
*original* message as the stream's metadata. -/
def handle_data_message (srv : RtmpServer) (message : Message) : Except Err RtmpServer :=
  match decode_amf_string true message.message with
  | .error e => .error e
  | .ok (s1, reader) =>
    if s1 ≠ ascii "@setDataFrame" then .error .unknownDataMessage
    else
      match decode_amf_string true reader with
      | .error e => .error e
      | .ok (s2, reader) =>
        if s2 ≠ ascii "onMetaData" then .error .unknownDataMessage
        else
          match decode_amf_ecma_array_run true reader with
          | .error e => .error e
          | .ok (_properties, _) =>
            match srv.broadcast 0 18 message with
            | .error e => .error e
            | .ok srv =>
              match alLookup srv.media_streams srv.stream_name with
              | none => .error .missingMediaStream
              | some media_stream =>
                let media_stream := { media_stream with metadata := some message }
                .ok { srv with media_streams :=
                        alInsert srv.media_streams srv.stream_name media_stream }

/-- `server.rs::handle_video_message` (`message.message[0]` panics on an
empty payload; the frame type and codec id only feed logging). -/
def handle_video_message (srv : RtmpServer) (message : Message) : Except Err RtmpServer :=
  match message.message with
  | [] => .error .panicked
  | _ :: _ => srv.broadcast message.header.timestamp 9 message

/-- `server.rs::handle_audio_message`. -/
def handle_audio_message (srv : RtmpServer) (message : Message) : Except Err RtmpServer :=
  srv.broadcast message.header.timestamp 8 message

/-! ### Test harness: wire construction for the chunk and AMF layers -/

/-- Big-endian 3-byte field of a value below `2^24` (as a conforming
sender writes chunk-header timestamp and length fields). -/
def be3 (n : Nat) : List Nat := [n / 65536 % 256, n / 256 % 256, n % 256]

/-- Little-endian 4-byte field (the fmt-0 `message_stream_id`). -/
def msidLe4 (n : Nat) : List Nat := [n % 256, n / 256 % 256, n / 2 ^ 16 % 256, n / 2 ^ 24 % 256]

/-- A full fmt-0 chunk header on chunk stream 3 (basic-header byte `0x03`),
for a non-extended timestamp. -/
def fmt0_chunk_header (ts len tid msid : Nat) : List Nat :=
  3 :: (be3 ts ++ be3 len ++ [tid] ++ msidLe4 msid)

/-- The fmt-3 basic-header byte for chunk stream 3 (`(3 << 6) | 3`). -/
def fmt3_byte : Nat := 0xC3

/-- The continuation chunks of a message: each chunk is the fmt-3 basic
header followed by the next `D + 1` payload bytes. -/
def chunk_rest (D : Nat) : List Nat → List Nat
  | [] => []
  | b :: l => fmt3_byte :: ((b :: l.take D) ++ chunk_rest D (l.drop D))
termination_by l => l.length
decreasing_by simp only [List.length_drop, List.length_cons]; omega

/-- The wire form of one message of `payload` chunked at size `C` on chunk
stream 3: a fmt-0 chunk carrying the first `min C payload.length` bytes,
then fmt-3 continuation chunks of `C` bytes each. -/
def message_wire (C ts len tid msid : Nat) (payload : List Nat) : List Nat :=
  fmt0_chunk_header ts len tid msid ++ payload.take C ++ chunk_rest (C - 1) (payload.drop C)

/-- A fresh reader state whose receive chunk size has been set to `C`. -/
def streamStateC (C : Nat) : RtmpMessageStream := ⟨[], [], C, 128⟩

/-- One item of an ECMA-array body on the wire: either a real property or
a bare empty name (the two zero bytes of a zero name length, with no
value following — `decode_amf_object_property` returns `None` without
reading further). -/
def encode_ecma_item : Option (List Nat × AmfObject) → List Nat
  | none => [0, 0]
  | some (k, v) => u16be k.length ++ k ++ encode_amf_message_impl v

/-- Concatenated wire items of an ECMA-array body. -/
def encode_ecma_items : List (Option (List Nat × AmfObject)) → List Nat
  | [] => []
  | item :: rest => encode_ecma_item item ++ encode_ecma_items rest

/-- Well-formedness of a single wire item. -/
def wfItem : Option (List Nat × AmfObject) → Bool
  | none => true
  | some (k, v) => !k.isEmpty && k.length < 65536 && bytesOk k && wfAmf v

/-- Well-formedness of a wire-item list. -/
def wfItems : List (Option (List Nat × AmfObject)) → Bool
  | [] => true
  | item :: rest => wfItem item && wfItems rest

/-- `server.rs::handle_command_message`: decode the command name, dispatch,
and report whether the session should terminate (`cmd == "deleteStream"`). -/
def handle_command_message (srv : RtmpServer) (message : Message) :
    Except Err (Bool × RtmpServer) :=
  match decode_amf_message_run message.message with
  | .error e => .error e
  | .ok (.string cmd, reader) =>
    let run : Except Err RtmpServer :=
      if cmd = ascii "connect" then handle_connect srv reader
      else if cmd = ascii "deleteStream" then handle_delete_stream srv reader
      else if cmd = ascii "releaseStream" then handle_release_stream srv reader
      else if cmd = ascii "createStream" then handle_create_stream srv reader message.header
      else if cmd = ascii "play" then handle_play srv reader
      else if cmd = ascii "seek" then handle_seek srv reader
      else if cmd = ascii "pause" then handle_pause srv reader
      else if cmd = ascii "getStreamLength" then handle_get_stream_length srv reader
      else if cmd = ascii "publish" then handle_publish srv reader
      else if cmd = ascii "FCPublish" ∨ cmd = ascii "FCUnpublish" then .ok srv
      else .error (.unknownCommandMessage cmd)
    match run with
    | .error e => .error e
    | .ok srv => .ok (decide (cmd = ascii "deleteStream"), srv)
  | .ok _ => .error .nonStringCommand

/-- The `@setDataFrame` data message a publisher sends: the wrapper
string, the `onMetaData` string and the metadata ECMA array. -/
def dataFramePayload (es : List (List Nat × AmfObject)) : List Nat :=
  encode_amf_messages
    [.string (ascii "@setDataFrame"), .string (ascii "onMetaData"), .ecmaArray es]

/-- The clients of a media stream after a fan-out of `m` in which no write
failed: paused clients untouched, the rest log the send. -/
def clientsAfterSend (cs : List RtmpClient) (m : SentMessage) : List RtmpClient :=
  cs.map (fun c => if c.paused then c else { c with sent := c.sent ++ [m] })

/-! ## Reader lemmas -/

theorem read_buffer_exact (l rest : List Nat) :
    read_buffer l.length (l ++ rest) = .ok (l, rest) := by
  have h : l.length ≤ (l ++ rest).length := by simp
  simp [read_buffer, h, List.take_left, List.drop_left]

theorem read_buffer_exact_of_len (n : Nat) (l rest : List Nat) (h : l.length = n) :
    read_buffer n (l ++ rest) = .ok (l, rest) := by
  subst h; exact read_buffer_exact l rest

theorem read_u16_u16be (n : Nat) (rest : List Nat) :
    read_u16 (u16be n ++ rest) = .ok (n % 65536, rest) := by
  simp [read_u16, u16be, read_buffer, beVal, List.take, List.drop]
  omega

theorem read_u32_u32be (n : Nat) (rest : List Nat) :
    read_u32 (u32be n ++ rest) = .ok (n % 2 ^ 32, rest) := by
  simp [read_u32, u32be, read_buffer, beVal, List.take, List.drop]
  omega

theorem read_f64_u64be (n : Nat) (rest : List Nat) :
    read_f64 (u64be n ++ rest) = .ok (n % 2 ^ 64, rest) := by
  simp [read_f64, u64be, read_buffer, beVal, List.take, List.drop]
  omega

theorem read_i16_u16be (n : Nat) (rest : List Nat) :
    read_i16 (u16be n ++ rest) = .ok (n % 65536, rest) := by
  simp [read_i16, u16be, read_buffer, beVal, List.take, List.drop]
  omega

theorem encode_length_pos (v : AmfObject) : 0 < (encode_amf_message_impl v).length := by
  cases v <;> simp [encode_amf_message_impl]

/-! ## AMF round-trip (decode of an encoding) -/

theorem decode_amf_number_enc (b : Nat) (rest : List Nat) (h : b < 2 ^ 64) :
    decode_amf_number true (encode_amf_message_impl (.number b) ++ rest) = .ok (b, rest) := by
  simp [encode_amf_message_impl, decode_amf_number, maybe_verify_marker, verify_type_marker,
        read_u8, NUMBER_MARKER, read_f64_u64be, Nat.mod_eq_of_lt h]
  omega

theorem decode_amf_null_enc (rest : List Nat) :
    decode_amf_null true (encode_amf_message_impl .null ++ rest) = .ok ((), rest) := by
  simp [encode_amf_message_impl, decode_amf_null, maybe_verify_marker, verify_type_marker,
        read_u8, NULL_MARKER]

theorem decode_amf_string_enc (s : List Nat) (rest : List Nat) (h : s.length < 65536) :
    decode_amf_string true (encode_amf_message_impl (.string s) ++ rest) = .ok (s, rest) := by
  have h2 : s.length % 65536 = s.length := Nat.mod_eq_of_lt h
  simp only [encode_amf_message_impl, decode_amf_string, maybe_verify_marker,
             verify_type_marker, read_u8, STRING_MARKER, List.cons_append, List.append_assoc]
  simp [read_u16_u16be, h2, read_buffer_exact]

theorem decode_amf_boolean_enc (b : Bool) (rest : List Nat) :
    decode_amf_boolean true (encode_amf_message_impl (.boolean b) ++ rest) = .ok (b, rest) := by
  cases b <;>
    simp [encode_amf_message_impl, decode_amf_boolean, maybe_verify_marker,
          verify_type_marker, read_u8, BOOLEAN_MARKER]

theorem alLookup_append {κ β : Type} [DecidableEq κ] (l1 l2 : List (κ × β)) (k : κ) :
    alLookup (l1 ++ l2) k =
      match alLookup l1 k with
      | some v => some v
      | none => alLookup l2 k := by
  induction l1 with
  | nil => simp [alLookup]
  | cons p l1 ih =>
    obtain ⟨a, b⟩ := p
    by_cases h : a = k <;> simp [alLookup, h, ih]

theorem distinct_head_not_in {κ β : Type} [DecidableEq κ] (acc : List (κ × β)) (k : κ)
    (v : β) (es : List (κ × β)) (h : distinctKeys (acc ++ (k, v) :: es) = true) :
    alLookup acc k = none := by
  induction acc with
  | nil => simp [alLookup]
  | cons p acc ih =>
    obtain ⟨a, b⟩ := p
    simp only [List.cons_append, distinctKeys, Bool.and_eq_true] at h
    obtain ⟨h1, h2⟩ := h
    have hne : a ≠ k := by
      intro he
      subst he
      simp only [List.append_eq] at h1
      rw [alLookup_append] at h1
      cases hl : alLookup acc a <;> simp [hl, alLookup] at h1
    simp [alLookup, hne, ih h2]

theorem alInsert_not_mem {κ β : Type} [DecidableEq κ] (acc : List (κ × β)) (k : κ) (v : β)
    (h : alLookup acc k = none) : alInsert acc k v = acc ++ [(k, v)] := by
  induction acc with
  | nil => simp [alInsert]
  | cons p acc ih =>
    obtain ⟨a, b⟩ := p
    by_cases hak : a = k
    · subst hak
      simp [alLookup] at h
    · simp only [alLookup, if_neg hak] at h
      simp [alInsert, hak, ih h]

theorem encode_ecma_items_map_some (es : List (List Nat × AmfObject)) :
    encode_ecma_items (es.map some) = encode_amf_properties es := by
  induction es with
  | nil => rfl
  | cons p es ih =>
    obtain ⟨k, v⟩ := p
    simp [encode_ecma_items, encode_ecma_item, encode_amf_properties, ih]

theorem filterMap_id_map_some {α : Type} (l : List α) : (l.map some).filterMap id = l := by
  induction l with
  | nil => rfl
  | cons a l ih => simp [ih]

theorem wfItems_map_some (es : List (List Nat × AmfObject)) (h : wfProps es = true) :
    wfItems (es.map some) = true := by
  induction es with
  | nil => rfl
  | cons p es ih =>
    obtain ⟨k, v⟩ := p
    simp only [wfProps, Bool.and_eq_true] at h
    obtain ⟨⟨⟨⟨h1, h2⟩, h3⟩, h4⟩, h5⟩ := h
    simp [wfItems, wfItem, h1, h2, h3, h4, ih h5]

/-- The step-indexed heart of the AMF round-trip: with enough fuel
(bounded by the length of the encoding), each decoder returns the encoded
value and the unread rest, simultaneously
for messages, properties, and the object/ECMA/strict-array loops. -/
theorem decode_encode_master : ∀ fuel : Nat,
    (∀ v rest, wfAmf v = true → (encode_amf_message_impl v).length ≤ fuel →
      decode_amf_message fuel (encode_amf_message_impl v ++ rest) = .ok (v, rest)) ∧
    (∀ k v rest, k.isEmpty = false → k.length < 65536 → wfAmf v = true →
      2 + k.length + (encode_amf_message_impl v).length ≤ fuel →
      decode_amf_object_property fuel
          (u16be k.length ++ (k ++ (encode_amf_message_impl v ++ rest))) =
        .ok (some (k, v), rest)) ∧
    (∀ rest, 1 ≤ fuel →
      decode_amf_object_property fuel (0 :: 0 :: rest) = .ok (none, rest)) ∧
    (∀ es acc rest, wfProps es = true → distinctKeys (acc ++ es) = true →
      (encode_amf_properties es).length + 2 ≤ fuel →
      decode_amf_object_loop fuel acc (encode_amf_properties es ++ 0 :: 0 :: 9 :: rest) =
        .ok (acc ++ es, rest)) ∧
    (∀ es rest, wfProps es = true → distinctKeys es = true →
      (encode_amf_properties es).length + 3 ≤ fuel →
      decode_amf_object fuel false (encode_amf_properties es ++ 0 :: 0 :: 9 :: rest) =
        .ok (es, rest)) ∧
    (∀ items acc rest, wfItems items = true →
      (encode_ecma_items items).length + 2 ≤ fuel →
      decode_amf_ecma_loop fuel items.length acc (encode_ecma_items items ++ rest) =
        .ok (acc ++ items.filterMap id, rest)) ∧
    (∀ (verify : Bool) items rest, wfItems items = true → items.length < 2 ^ 32 →
      (encode_ecma_items items).length + 3 ≤ fuel →
      decode_amf_ecma_array fuel verify
        ((if verify then [ECMA_ARRAY_MARKER] else []) ++
          (u32be items.length ++ (encode_ecma_items items ++ 0 :: 0 :: 9 :: rest))) =
        .ok (items.filterMap id, rest)) ∧
    (∀ vs acc rest, wfValues vs = true →
      (encode_amf_values vs).length + 1 ≤ fuel →
      decode_amf_strict_loop fuel vs.length acc (encode_amf_values vs ++ rest) =
        .ok (acc ++ vs, rest)) ∧
    (∀ vs rest, wfValues vs = true → vs.length < 2 ^ 32 →
      (encode_amf_values vs).length + 2 ≤ fuel →
      decode_amf_strict_array fuel false (u32be vs.length ++ (encode_amf_values vs ++ rest)) =
        .ok (vs, rest)) := by
  intro fuel
  induction fuel with
  | zero =>
    refine ⟨fun v rest _ hb => absurd hb (by have := encode_length_pos v; omega),
            fun k v rest _ _ _ hb => absurd hb (by omega),
            fun rest hb => absurd hb (by omega),
            fun es acc rest _ _ hb => absurd hb (by omega),
            fun es rest _ _ hb => absurd hb (by omega),
            fun items acc rest _ hb => absurd hb (by omega),
            fun verify items rest _ _ hb => absurd hb (by omega),
            fun vs acc rest _ hb => absurd hb (by omega),
            fun vs rest _ _ hb => absurd hb (by omega)⟩
  | succ f ih =>
    obtain ⟨ihM, ihPS, ihPN, ihOL, ihOW, ihEL, ihEW, ihSL, ihSW⟩ := ih
    refine ⟨?_, ?_, ?_, ?_, ?_, ?_, ?_, ?_, ?_⟩
    · -- decode_amf_message of an encoding
      intro v rest hwf hb
      cases v with
      | number b =>
        simp only [wfAmf, decide_eq_true_eq] at hwf
        simp [encode_amf_message_impl, decode_amf_message, read_u8, read_f64_u64be,
              List.cons_append, List.append_assoc]
        omega
      | boolean b =>
        cases b <;> simp [encode_amf_message_impl, decode_amf_message, read_u8]
      | string s =>
        simp only [wfAmf, Bool.and_eq_true, decide_eq_true_eq] at hwf
        have h2 : s.length % 65536 = s.length := Nat.mod_eq_of_lt hwf.1
        simp only [encode_amf_message_impl, List.cons_append, List.append_assoc]
        simp [decode_amf_message, read_u8, decode_amf_string, maybe_verify_marker,
              read_u16_u16be, h2, read_buffer_exact]
      | object es =>
        simp only [wfAmf, Bool.and_eq_true] at hwf
        have hlen : (encode_amf_message_impl (.object es)).length =
            (encode_amf_properties es).length + 4 := by
          simp [encode_amf_message_impl]
        simp only [encode_amf_message_impl, List.cons_append, List.append_assoc,
                   List.cons_append]
        simp only [decode_amf_message, read_u8]
        norm_num
        rw [ihOW es rest hwf.2 hwf.1 (by omega)]
      | null => simp [encode_amf_message_impl, decode_amf_message, read_u8]
      | undefined => simp [encode_amf_message_impl, decode_amf_message, read_u8]
      | reference r =>
        simp only [wfAmf, decide_eq_true_eq] at hwf
        simp [encode_amf_message_impl, decode_amf_message, read_u8, read_u16_u16be,
              List.cons_append, List.append_assoc]
        omega
      | ecmaArray es =>
        simp only [wfAmf, Bool.and_eq_true, decide_eq_true_eq] at hwf
        have hlen : (encode_amf_message_impl (.ecmaArray es)).length =
            (encode_amf_properties es).length + 8 := by
          simp [encode_amf_message_impl, u32be]
        have hi := ihEW false (es.map some) rest (wfItems_map_some es hwf.2)
          (by simpa using hwf.1)
          (by rw [encode_ecma_items_map_some]; omega)
        simp only [if_neg Bool.false_ne_true, List.nil_append, encode_ecma_items_map_some,
                   List.length_map, filterMap_id_map_some] at hi
        simp only [encode_amf_message_impl, List.cons_append, List.append_assoc]
        simp only [decode_amf_message, read_u8]
        norm_num
        rw [hi]
      | strictArray es =>
        simp only [wfAmf, Bool.and_eq_true, decide_eq_true_eq] at hwf
        have hlen : (encode_amf_message_impl (.strictArray es)).length =
            (encode_amf_values es).length + 5 := by
          simp [encode_amf_message_impl, u32be]
        have hi := ihSW es rest hwf.2 hwf.1 (by omega)
        simp only [encode_amf_message_impl, List.cons_append, List.append_assoc]
        simp only [decode_amf_message, read_u8]
        norm_num
        rw [hi]
      | date d t =>
        simp only [wfAmf, Bool.and_eq_true, decide_eq_true_eq] at hwf
        simp [encode_amf_message_impl, decode_amf_message, read_u8, read_f64_u64be,
              read_i16_u16be, List.cons_append, List.append_assoc]
        constructor <;> omega
    · -- decode_amf_object_property of an encoded property
      intro k v rest hke hkl hwf hb
      have h2 : k.length % 65536 = k.length := Nat.mod_eq_of_lt hkl
      have h0 : k.length ≠ 0 := by
        cases k
        · simp at hke
        · simp
      have hM := ihM v rest hwf (by omega)
      simp only [decode_amf_object_property, read_u16_u16be, h2]
      rw [if_neg h0]
      simp only [read_buffer_exact, hM]
    · -- decode_amf_object_property at the object-end sequence
      intro rest _
      simp [decode_amf_object_property, read_u16, read_buffer, beVal]
    · -- the object property loop
      intro es acc rest hwf hdist hb
      cases es with
      | nil =>
        have hPN := ihPN (9 :: rest) (by omega)
        simp only [encode_amf_properties, List.nil_append]
        simp only [decode_amf_object_loop, hPN]
        simp [verify_type_marker, read_u8]
      | cons p es' =>
        obtain ⟨k, v⟩ := p
        simp only [wfProps, Bool.and_eq_true, decide_eq_true_eq] at hwf
        obtain ⟨⟨⟨⟨h1, h2⟩, h3⟩, h4⟩, h5⟩ := hwf
        have h1' : k.isEmpty = false := by
          cases hx : k.isEmpty
          · rfl
          · rw [hx] at h1; simp at h1
        have hlen : (encode_amf_properties ((k, v) :: es')).length =
            2 + k.length + (encode_amf_message_impl v).length +
              (encode_amf_properties es').length := by
          simp [encode_amf_properties, u16be]
          omega
        rw [hlen] at hb
        have hPS := ihPS k v (encode_amf_properties es' ++ 0 :: 0 :: 9 :: rest)
          h1' h2 h4 (by omega)
        have hacc : alLookup acc k = none := distinct_head_not_in acc k v es' hdist
        have hshift : distinctKeys ((acc ++ [(k, v)]) ++ es') = true := by
          rw [List.append_assoc]
          simpa using hdist
        have hOL := ihOL es' (acc ++ [(k, v)]) rest h5 hshift (by omega)
        simp only [encode_amf_properties, List.append_assoc, List.cons_append]
        simp only [decode_amf_object_loop, hPS, alInsert_not_mem acc k v hacc, hOL]
        simp
    · -- decode_amf_object without marker verification
      intro es rest hwf hdist hb
      have hOL := ihOL es [] rest hwf (by simpa using hdist) (by omega)
      simp only [decode_amf_object, maybe_verify_marker, if_neg Bool.false_ne_true, hOL]
      simp
    · -- the ECMA count loop over wire items
      intro items acc rest hwf hb
      cases items with
      | nil =>
        simp [encode_ecma_items, decode_amf_ecma_loop]
      | cons item items' =>
        cases item with
        | none =>
          simp only [wfItems, wfItem, Bool.true_and] at hwf
          have hlen : (encode_ecma_items (none :: items')).length =
              2 + (encode_ecma_items items').length := by
            simp [encode_ecma_items, encode_ecma_item]
            omega
          rw [hlen] at hb
          have hPN := ihPN (encode_ecma_items items' ++ rest) (by omega)
          have hEL := ihEL items' acc rest hwf (by omega)
          simp only [encode_ecma_items, encode_ecma_item, List.cons_append, List.nil_append,
                     List.length_cons, List.append_assoc]
          simp only [decode_amf_ecma_loop, hPN, hEL]
          simp
        | some p =>
          obtain ⟨k, v⟩ := p
          simp only [wfItems, wfItem, Bool.and_eq_true, decide_eq_true_eq] at hwf
          obtain ⟨⟨⟨⟨h1, h2⟩, h3⟩, h4⟩, h5⟩ := hwf
          have h1' : k.isEmpty = false := by
            cases hx : k.isEmpty
            · rfl
            · rw [hx] at h1; simp at h1
          have hlen : (encode_ecma_items (some (k, v) :: items')).length =
              2 + k.length + (encode_amf_message_impl v).length +
                (encode_ecma_items items').length := by
            simp [encode_ecma_items, encode_ecma_item, u16be]
            omega
          rw [hlen] at hb
          have hPS := ihPS k v (encode_ecma_items items' ++ rest) h1' h2 h4 (by omega)
          have hEL := ihEL items' (acc ++ [(k, v)]) rest h5 (by omega)
          simp only [encode_ecma_items, encode_ecma_item, List.cons_append, List.length_cons,
                     List.append_assoc]
          simp only [decode_amf_ecma_loop, hPS, hEL]
          simp
    · -- decode_amf_ecma_array of a wire-item body
      intro verify items rest hwf hcount hb
      have hc : items.length % 2 ^ 32 = items.length := Nat.mod_eq_of_lt hcount
      have hEL := ihEL items [] (0 :: 0 :: 9 :: rest) hwf (by omega)
      have hPN := ihPN (9 :: rest) (by omega)
      cases verify with
      | false =>
        simp only [if_neg Bool.false_ne_true, List.nil_append]
        simp only [decode_amf_ecma_array, maybe_verify_marker, if_neg Bool.false_ne_true,
                   read_u32_u32be, hc, hEL, hPN]
        simp [verify_type_marker, read_u8]
      | true =>
        simp only [if_pos rfl, List.cons_append, List.nil_append]
        simp only [decode_amf_ecma_array, maybe_verify_marker, if_pos rfl,
                   verify_type_marker, read_u8]
        norm_num
        simp only [read_u32_u32be, hc, hEL, hPN]
        simp [verify_type_marker, read_u8]
    · -- the strict-array collection loop
      intro vs acc rest hwf hb
      cases vs with
      | nil => simp [encode_amf_values, decode_amf_strict_loop]
      | cons v vs' =>
        simp only [wfValues, Bool.and_eq_true] at hwf
        have hlen : (encode_amf_values (v :: vs')).length =
            (encode_amf_message_impl v).length + (encode_amf_values vs').length := by
          simp [encode_amf_values]
        rw [hlen] at hb
        have hpos := encode_length_pos v
        have hM := ihM v (encode_amf_values vs' ++ rest) hwf.1 (by omega)
        have hSL := ihSL vs' (acc ++ [v]) rest hwf.2 (by omega)
        simp only [encode_amf_values, List.append_assoc, List.length_cons]
        simp only [decode_amf_strict_loop, hM, hSL]
        simp
    · -- decode_amf_strict_array without marker verification
      intro vs rest hwf hcount hb
      have hc : vs.length % 2 ^ 32 = vs.length := Nat.mod_eq_of_lt hcount
      have hSL := ihSL vs [] rest hwf (by omega)
      simp only [decode_amf_strict_array, maybe_verify_marker, if_neg Bool.false_ne_true,
                 read_u32_u32be, hc, hSL]
      simp

/-- C1 (counterexample): the round-trip claim fails as stated.  The value
`Object {"": Null}` is constructible (a `HashMap` admits the empty-string
key), but its encoding writes the key length 0, which the decoder takes
as the object-end sequence and then rejects the `Null` marker `0x05`
where it requires `0x09`: decoding returns `AmfIncorrectTypeMarker`
instead of the value. -/
theorem C1_roundtrip_counterexample :
    decode_amf_message_run (encode_amf_messages [AmfObject.object [([], .null)]]) =
      .error .amfIncorrectTypeMarker ∧
    decode_amf_message_run (encode_amf_messages [AmfObject.object [([], .null)]]) ≠
      .ok (AmfObject.object [([], .null)], []) :=
  ⟨rfl, fun h => nomatch h⟩

/-- C1 (amended): decoding the encoding of `v` yields `v` again (with
`Object` represented as its association list, so equality up to key
ordering holds a fortiori) for every well-formed AMF value: object keys
non-empty and pairwise distinct, string/key byte lengths below `2^16`,
array lengths below `2^32`, numeric fields within their bit widths.  The
original claim fails outside this set (see the counterexample). -/
theorem C1_roundtrip_wf (v : AmfObject) (h : wfAmf v = true) :
    decode_amf_message_run (encode_amf_messages [v]) = .ok (v, []) := by
  have hm := (decode_encode_master ((encode_amf_message_impl v).length + 1)).1 v [] h
    (by omega)
  simpa [decode_amf_message_run, encode_amf_messages, encode_amf_values] using hm

/-- C1 (witness). -/
theorem C1_roundtrip_witness :
    wfAmf (AmfObject.object
      [(ascii "a", .number 7), (ascii "b", .ecmaArray
          [(ascii "c", .strictArray [.boolean true, .null, .undefined]),
           (ascii "c", .date 5 2)]),
       (ascii "d", .string (ascii "hi")), (ascii "e", .reference 9)]) = true ∧
    decode_amf_message_run (encode_amf_messages [AmfObject.object
      [(ascii "a", .number 7), (ascii "b", .ecmaArray
          [(ascii "c", .strictArray [.boolean true, .null, .undefined]),
           (ascii "c", .date 5 2)]),
       (ascii "d", .string (ascii "hi")), (ascii "e", .reference 9)]]) =
      .ok (AmfObject.object
      [(ascii "a", .number 7), (ascii "b", .ecmaArray
          [(ascii "c", .strictArray [.boolean true, .null, .undefined]),
           (ascii "c", .date 5 2)]),
       (ascii "d", .string (ascii "hi")), (ascii "e", .reference 9)], []) :=
  ⟨rfl, C1_roundtrip_wf _ rfl⟩

/-- C6 (counterexample): the claim that a non-empty-named property after
the exhausted advisory count "is still accepted into the result" is
false.  With advisory count 0 followed by the property `("k", Null)` and
the terminator, `decode_amf_ecma_array` rejects the input with
`AmfIncorrectEndOfEcmaArray` rather than accepting the property. -/
theorem C6_ecma_counterexample :
    decode_amf_ecma_array_run false [0, 0, 0, 0, 0, 1, 107, 5, 0, 0, 9] =
      .error .amfIncorrectEndOfEcmaArray ∧
    decode_amf_ecma_array_run false [0, 0, 0, 0, 0, 1, 107, 5, 0, 0, 9] ≠
      .ok ([([107], .null)], []) :=
  ⟨rfl, fun h => nomatch h⟩

/-- C6 (amended): the 4-byte advisory count IS trusted as the loop bound:
exactly `count` property reads occur, in which a property with an empty
name (the bare two zero bytes) is silently skipped — not an error — and
a property with a non-empty name is accepted in order; after the count is
exhausted the decoder requires exactly one empty name and the
`0x00 0x00 0x09` terminator, and a further non-empty-named property is
rejected with `AmfIncorrectEndOfEcmaArray`. -/
theorem C6_ecma_count_authoritative
    (items : List (Option (List Nat × AmfObject))) (rest : List Nat)
    (k : List Nat) (v : AmfObject)
    (hwf : wfItems items = true) (hcount : items.length < 2 ^ 32)
    (hke : k.isEmpty = false) (hkl : k.length < 65536) (hv : wfAmf v = true) :
    decode_amf_ecma_array_run false
        (u32be items.length ++ (encode_ecma_items items ++ 0 :: 0 :: 9 :: rest)) =
      .ok (items.filterMap id, rest) ∧
    decode_amf_ecma_array_run false
        (u32be items.length ++ (encode_ecma_items items ++
          (u16be k.length ++ (k ++ (encode_amf_message_impl v ++ rest))))) =
      .error .amfIncorrectEndOfEcmaArray := by
  constructor
  · have hm := (decode_encode_master
      ((u32be items.length ++ (encode_ecma_items items ++ 0 :: 0 :: 9 :: rest)).length + 1)).2.2.2.2.2.2.1
      false items rest hwf hcount (by simp [u32be]; omega)
    simpa [decode_amf_ecma_array_run] using hm
  · have hfuel : ∀ g : Nat,
        (encode_ecma_items items).length + 2 ≤ g →
        2 + k.length + (encode_amf_message_impl v).length ≤ g →
        decode_amf_ecma_array (g + 1) false
          (u32be items.length ++ (encode_ecma_items items ++
            (u16be k.length ++ (k ++ (encode_amf_message_impl v ++ rest))))) =
          .error .amfIncorrectEndOfEcmaArray := by
      intro g hg1 hg2
      obtain ⟨_, ihPS, _, _, _, ihEL, _, _, _⟩ := decode_encode_master g
      have hc : items.length % 2 ^ 32 = items.length := Nat.mod_eq_of_lt hcount
      have hEL := ihEL items []
        (u16be k.length ++ (k ++ (encode_amf_message_impl v ++ rest))) hwf hg1
      have hPS := ihPS k v rest hke hkl hv hg2
      simp only [decode_amf_ecma_array, maybe_verify_marker, if_neg Bool.false_ne_true,
                 read_u32_u32be, hc, hEL, hPS]
    have hlen : 2 + k.length + (encode_amf_message_impl v).length ≤
        (u32be items.length ++ (encode_ecma_items items ++
          (u16be k.length ++ (k ++ (encode_amf_message_impl v ++ rest))))).length := by
      simp [u32be, u16be]
      omega
    have hlen2 : (encode_ecma_items items).length + 2 ≤
        (u32be items.length ++ (encode_ecma_items items ++
          (u16be k.length ++ (k ++ (encode_amf_message_impl v ++ rest))))).length := by
      simp [u32be, u16be]
      omega
    exact hfuel _ hlen2 hlen

/-- C10: every `Some(m)` returned by `read_message` satisfies
`m.message.len() == m.header.message_length` — the message is emitted
exactly under that equality guard — so the `InconsistentMessageLength`
check in the `serve` loop can never fire on a message produced by
`read_message`. -/
theorem C10_emitted_length (s : RtmpMessageStream) (input : List Nat)
    (m : Message) (s' : RtmpMessageStream) (rest : List Nat)
    (h : read_message s input = .ok (some m, s', rest)) :
    m.message.length = m.header.message_length := by
  simp only [read_message] at h
  split at h
  · simp at h
  · split at h
    · simp at h
    · split at h
      · simp at h
      · split at h
        · simp only [Option.some.injEq, Except.ok.injEq, Prod.mk.injEq] at h
          obtain ⟨h1, -, -⟩ := h
          subst h1
          simp_all
        · simp at h

/-- C10 (witness). -/
theorem C10_emitted_length_witness :
    (⟨⟨5, 1, 9, 1, 0⟩, [42]⟩ : Message).message.length =
      (⟨⟨5, 1, 9, 1, 0⟩, [42]⟩ : Message).header.message_length :=
  C10_emitted_length newMessageStream (fmt0_chunk_header 5 1 9 1 ++ [42])
    ⟨⟨5, 1, 9, 1, 0⟩, [42]⟩ ⟨[], [(3, (⟨5, 1, 9, 1, 0⟩, 0))], 128, 128⟩ [] (by rfl)

/-- C9 (counterexample): the reader interprets the two extra basic-header
bytes big-endian, not little-endian: on bytes `[0x01, 0x01, 0x00]` the
claim predicts csid `64 + (1 + 0*256) = 65` but the code returns 320.
On bytes `[0x01, 0xFF, 0xFF]` the claimed formula predicts csid 65599,
but the `u16` addition `64 + 0xFFFF` overflows and the code panics.
Moreover the sender's 3-byte form for csid 320 starts with a first byte
whose low 6 bits are 0 (not 1), so the reader consumes only one extra
byte and returns 65, not 320: the claimed encode/decode agreement fails. -/
theorem C9_basic_header_counterexample :
    read_chunk_basic_header [1, 1, 0] = .ok (⟨320, 0⟩, []) ∧
    (320 : Nat) ≠ 64 + (1 + 0 * 256) ∧
    read_chunk_basic_header [1, 255, 255] = .error .panicked ∧
    read_chunk_basic_header (send_chunk_basic_header 320 0 ++ []) = .ok (⟨65, 0⟩, [0]) ∧
    (65 : Nat) ≠ 320 :=
  ⟨rfl, by decide, rfl, rfl, by decide⟩

/-- C9 (amended): when the low 6 bits of the first basic-header byte equal
1, the reader consumes two more bytes interpreted BIG-endian and computes
`64 + (byte1*256 + byte2)` in `u16`: for aggregated values below `0xFFC0`
the chunk-stream id is `64 + (byte1*256 + byte2)`, and for `0xFFC0` and
above the `u16` addition overflows (a panic in debug builds), so ids
65536..65599 are unreachable.  The sender's 3-byte form (used for csid in
[320, 65535]) writes a first byte with low 6 bits 0 and the (csid-64)
bytes big-endian, so the reader takes it for the 2-byte form and returns
`64 + ((csid-64) >> 8)`, which never equals the sent csid: there is no
encode/decode agreement on the 3-byte form. -/
theorem C9_basic_header_big_endian (fmt b1 b2 csid : Nat) (rest rest' : List Nat)
    (hf : fmt < 4) (_hb1 : b1 < 256) (_hb2 : b2 < 256)
    (hc1 : 320 ≤ csid) (hc2 : csid < 65536) :
    read_chunk_basic_header ((fmt * 64 + 1) :: b1 :: b2 :: rest) =
      (if 64 + (b1 * 256 + b2) < 2 ^ 16 then .ok (⟨64 + (b1 * 256 + b2), fmt⟩, rest)
       else .error .panicked) ∧
    read_chunk_basic_header (send_chunk_basic_header csid fmt ++ rest') =
      .ok (⟨64 + (csid - 64) / 256, fmt⟩, ((csid - 64) % 256) :: rest') ∧
    64 + (csid - 64) / 256 ≠ csid := by
  refine ⟨?_, ?_, by omega⟩
  · have h1 : (fmt * 64 + 1) / 64 = fmt := by omega
    have h2 : (fmt * 64 + 1) % 64 = 1 := by omega
    simp [read_chunk_basic_header, read_numeric, read_buffer, aggregate, aggregateCombine,
          h1, h2]
  · have hs : send_chunk_basic_header csid fmt =
        [fmt * 64, (csid - 64) / 256 % 256, (csid - 64) % 256] := by
      simp only [send_chunk_basic_header, if_neg (by omega : ¬ csid < 64),
                 if_neg (by omega : ¬ csid < 320)]
      congr 1
      omega
    have h1 : fmt * 64 / 64 = fmt := by omega
    have h2 : fmt * 64 % 64 = 0 := by omega
    have h3 : (csid - 64) / 256 % 256 = (csid - 64) / 256 := by omega
    simp [hs, read_chunk_basic_header, read_numeric, read_buffer, aggregate,
          aggregateCombine, h1, h2, h3]

/-- C9 (witness). -/
theorem C9_basic_header_witness :
    (2 : Nat) < 4 ∧ (3 : Nat) < 256 ∧ (7 : Nat) < 256 ∧
    (320 : Nat) ≤ 1000 ∧ (1000 : Nat) < 65536 ∧
    (read_chunk_basic_header ((2 * 64 + 1) :: 3 :: 7 :: [5]) =
      (if 64 + (3 * 256 + 7) < 2 ^ 16 then .ok (⟨64 + (3 * 256 + 7), 2⟩, [5])
       else .error .panicked) ∧
     read_chunk_basic_header (send_chunk_basic_header 1000 2 ++ [6]) =
      .ok (⟨64 + (1000 - 64) / 256, 2⟩, ((1000 - 64) % 256) :: [6]) ∧
     64 + (1000 - 64) / 256 ≠ 1000) :=
  ⟨by decide, by decide, by decide, by decide, by decide,
   C9_basic_header_big_endian 2 3 7 1000 [5] [6] (by decide) (by decide) (by decide)
     (by decide) (by decide)⟩

theorem aggregate_be3 (t : Nat) (h : t < 2 ^ 24) : aggregate (be3 t) false = t := by
  simp [aggregate, aggregateCombine, be3]
  omega

theorem aggregate_msidLe4 (n : Nat) (h : n < 2 ^ 32) : aggregate (msidLe4 n) true = n := by
  simp [aggregate, aggregateCombine, msidLe4]
  omega

theorem read_numeric_one (b : Nat) (rest : List Nat) :
    read_numeric 1 (b :: rest) = .ok (b, rest) := by
  simp [read_numeric, read_buffer, aggregate, aggregateCombine, Nat.le_add_left]

theorem read_chunk_basic_header_plain (b : Nat) (rest : List Nat) (h : 2 ≤ b % 64) :
    read_chunk_basic_header (b :: rest) = .ok (⟨b % 64, b / 64⟩, rest) := by
  have h0 : ¬ (b % 64 = 0) := by omega
  have h1 : ¬ (b % 64 = 1) := by omega
  simp [read_chunk_basic_header, read_numeric_one, h0, h1]

theorem read_chunk_message_header_fmt0 (s : RtmpMessageStream) (ts len tid msid : Nat)
    (tail : List Nat) (hts : ts ≤ 0xFFFFFE) (hlen : len < 2 ^ 24) (_htid : tid < 256)
    (hmsid : msid < 2 ^ 32) :
    read_chunk_message_header s ⟨3, 0⟩
        (be3 ts ++ (be3 len ++ (tid :: (msidLe4 msid ++ tail)))) =
      .ok (⟨ts, len, tid, msid, 0⟩, tail) := by
  have hbuf : read_buffer 11 (be3 ts ++ (be3 len ++ (tid :: (msidLe4 msid ++ tail)))) =
      .ok (be3 ts ++ (be3 len ++ (tid :: msidLe4 msid)), tail) := by
    have hsh : be3 ts ++ (be3 len ++ (tid :: (msidLe4 msid ++ tail))) =
        (be3 ts ++ (be3 len ++ (tid :: msidLe4 msid))) ++ tail := by simp
    rw [hsh]
    exact read_buffer_exact_of_len 11 _ _ (by simp [be3, msidLe4])
  have ht0 : (be3 ts ++ (be3 len ++ (tid :: msidLe4 msid))).take 3 = be3 ts :=
    List.take_left' (by simp [be3])
  have hd3 : (be3 ts ++ (be3 len ++ (tid :: msidLe4 msid))).drop 3 =
      be3 len ++ (tid :: msidLe4 msid) := List.drop_left' (by simp [be3])
  have ht3 : (be3 len ++ (tid :: msidLe4 msid)).take 3 = be3 len :=
    List.take_left' (by simp [be3])
  have hg6 : (be3 ts ++ (be3 len ++ (tid :: msidLe4 msid))).getD 6 0 = tid := by
    simp [be3, msidLe4]
  have hd7 : ((be3 ts ++ (be3 len ++ (tid :: msidLe4 msid))).drop 7).take 4 =
      msidLe4 msid := by
    simp [be3, msidLe4]
  have hts24 : ts < 2 ^ 24 := by omega
  simp only [read_chunk_message_header]
  norm_num [hbuf, ht0, hd3, ht3, hg6, hd7, aggregate_be3 ts hts24, aggregate_be3 len hlen,
            aggregate_msidLe4 msid hmsid, hts]
  simp [be3, msidLe4]

theorem read_chunk_message_header_fmt3 (s : RtmpMessageStream) (hdr : ChunkMessageHeader)
    (input : List Nat) (hprev : alLookup s.prev_message_header 3 = some (hdr, 0)) :
    read_chunk_message_header s ⟨3, 3⟩ input =
      .ok ({ hdr with timestamp_delta := hdr.timestamp,
                      timestamp := (hdr.timestamp + hdr.timestamp) % 0xFFFFFF }, input) := by
  simp [read_chunk_message_header, hprev]

/-- A fmt-0 chunk whose payload completes the message, read from a state
with no partial message on chunk stream 3. -/
theorem read_message_fmt0_complete (C w ts len tid msid : Nat) (payload rest : List Nat)
    (prev : List (Nat × (ChunkMessageHeader × Nat)))
    (hts : ts ≤ 0xFFFFFE) (hlen : len < 2 ^ 24) (htid : tid < 256) (hmsid : msid < 2 ^ 32)
    (hp : payload.length = len) (hC : len ≤ C) :
    read_message ⟨[], prev, C, w⟩
        (fmt0_chunk_header ts len tid msid ++ (payload ++ rest)) =
      .ok (some ⟨⟨ts, len, tid, msid, 0⟩, payload⟩,
           ⟨[], alInsert prev 3 (⟨ts, len, tid, msid, 0⟩, 0), C, w⟩, rest) := by
  have hmh := read_chunk_message_header_fmt0 (⟨[], prev, C, w⟩ : RtmpMessageStream)
    ts len tid msid (payload ++ rest) hts hlen htid hmsid
  have hread2 : read_buffer (C ⊓ len) (payload ++ rest) = .ok (payload, rest) := by
    rw [show C ⊓ len = len from min_eq_right hC]
    exact read_buffer_exact_of_len len payload rest hp
  simp only [fmt0_chunk_header, List.cons_append, List.append_assoc, List.singleton_append]
  rw [read_message, read_chunk_basic_header_plain 3 _ (by norm_num)]
  norm_num
  rw [hmh]
  simp only [alLookup, alErase, Option.getD, Option.isNone]
  norm_num
  rw [hread2]
  simp [hp]

/-- A fmt-0 chunk that starts but does not complete the message (the
receive chunk size is smaller than the announced length). -/
theorem read_message_fmt0_incomplete (C w ts len tid msid : Nat) (payload rest : List Nat)
    (prev : List (Nat × (ChunkMessageHeader × Nat)))
    (hts : ts ≤ 0xFFFFFE) (hlen : len < 2 ^ 24) (htid : tid < 256) (hmsid : msid < 2 ^ 32)
    (hp : payload.length = C) (hC : C < len) :
    read_message ⟨[], prev, C, w⟩
        (fmt0_chunk_header ts len tid msid ++ (payload ++ rest)) =
      .ok (none,
           ⟨[(3, ⟨⟨ts, len, tid, msid, 0⟩, payload⟩)],
            alInsert prev 3 (⟨ts, len, tid, msid, 0⟩, 0), C, w⟩, rest) := by
  have hmh := read_chunk_message_header_fmt0 (⟨[], prev, C, w⟩ : RtmpMessageStream)
    ts len tid msid (payload ++ rest) hts hlen htid hmsid
  have hne : ¬ (payload.length = len) := by omega
  have hread2 : read_buffer (C ⊓ len) (payload ++ rest) = .ok (payload, rest) := by
    rw [show C ⊓ len = C from min_eq_left (Nat.le_of_lt hC)]
    exact read_buffer_exact_of_len C payload rest hp
  simp only [fmt0_chunk_header, List.cons_append, List.append_assoc, List.singleton_append]
  rw [read_message, read_chunk_basic_header_plain 3 _ (by norm_num)]
  norm_num
  rw [hmh]
  simp only [alLookup, alInsert, Option.getD, Option.isNone]
  norm_num
  rw [hread2]
  simp [hne]

/-- A fmt-3 chunk that continues the partial message of chunk stream 3 and
completes it: emitted with the retained header; `prev_message_header`
stays untouched (the chunk is not the first on its stream). -/
theorem read_message_fmt3_cont_complete (C w : Nat) (hdr : ChunkMessageHeader)
    (acc : List Nat) (pv : ChunkMessageHeader × Nat) (chunk rest : List Nat)
    (hc : chunk.length = min C (hdr.message_length - acc.length))
    (hfull : acc.length + chunk.length = hdr.message_length) :
    read_message ⟨[(3, ⟨hdr, acc⟩)], [(3, pv)], C, w⟩ (0xC3 :: (chunk ++ rest)) =
      .ok (some ⟨hdr, acc ++ chunk⟩, ⟨[], [(3, pv)], C, w⟩, rest) := by
  have hread2 : read_buffer (C ⊓ (hdr.message_length - acc.length))
      (chunk ++ rest) = .ok (chunk, rest) := by
    rw [show C ⊓ (hdr.message_length - acc.length) = chunk.length from hc.symm]
    exact read_buffer_exact chunk rest
  rw [read_message, read_chunk_basic_header_plain 0xC3 _ (by norm_num)]
  norm_num
  rw [read_chunk_message_header]
  simp only [alLookup, alErase, Option.getD, Option.isNone]
  norm_num
  rw [hread2]
  simp [hfull]

/-- A fmt-3 chunk that continues the partial message of chunk stream 3
without completing it. -/
theorem read_message_fmt3_cont_incomplete (C w : Nat) (hdr : ChunkMessageHeader)
    (acc : List Nat) (pv : ChunkMessageHeader × Nat) (chunk rest : List Nat)
    (hc : chunk.length = min C (hdr.message_length - acc.length))
    (hpart : acc.length + chunk.length < hdr.message_length) :
    read_message ⟨[(3, ⟨hdr, acc⟩)], [(3, pv)], C, w⟩ (0xC3 :: (chunk ++ rest)) =
      .ok (none, ⟨[(3, ⟨hdr, acc ++ chunk⟩)], [(3, pv)], C, w⟩, rest) := by
  have hne : ¬ (acc.length + chunk.length = hdr.message_length) := by omega
  have hread2 : read_buffer (C ⊓ (hdr.message_length - acc.length))
      (chunk ++ rest) = .ok (chunk, rest) := by
    rw [show C ⊓ (hdr.message_length - acc.length) = chunk.length from hc.symm]
    exact read_buffer_exact chunk rest
  rw [read_message, read_chunk_basic_header_plain 0xC3 _ (by norm_num)]
  norm_num
  rw [read_chunk_message_header]
  simp only [alLookup, alInsert, Option.getD, Option.isNone]
  norm_num
  rw [hread2]
  simp [hne]

/-- A fmt-3 chunk arriving with no partial message on chunk stream 3
(it starts a new message): the previously retained fmt-0 header is
expanded by reapplying its timestamp as the delta, and the chunk
completes the new message. -/
theorem read_message_fmt3_new_complete (C w : Nat) (hdr : ChunkMessageHeader)
    (chunk rest : List Nat)
    (hc : chunk.length = hdr.message_length) (hC : hdr.message_length ≤ C) :
    read_message ⟨[], [(3, (hdr, 0))], C, w⟩ (0xC3 :: (chunk ++ rest)) =
      .ok (some ⟨⟨(hdr.timestamp + hdr.timestamp) % 0xFFFFFF, hdr.message_length,
                  hdr.message_type_id, hdr.message_stream_id, hdr.timestamp⟩, chunk⟩,
           ⟨[], [(3, (⟨(hdr.timestamp + hdr.timestamp) % 0xFFFFFF, hdr.message_length,
                       hdr.message_type_id, hdr.message_stream_id, hdr.timestamp⟩, 3))],
            C, w⟩, rest) := by
  have hmh := read_chunk_message_header_fmt3 (⟨[], [(3, (hdr, 0))], C, w⟩ :
    RtmpMessageStream) hdr (chunk ++ rest) (by simp [alLookup])
  have hread2 : read_buffer (C ⊓ hdr.message_length) (chunk ++ rest) =
      .ok (chunk, rest) := by
    rw [show C ⊓ hdr.message_length = chunk.length from by rw [hc]; exact min_eq_right hC]
    exact read_buffer_exact chunk rest
  rw [read_message, read_chunk_basic_header_plain 0xC3 _ (by norm_num)]
  norm_num
  rw [hmh]
  simp only [alLookup, alErase, alInsert, Option.getD, Option.isNone]
  norm_num
  rw [hread2]
  simp [hc]

/-- Iterating `read_message` over the fmt-3 continuation chunks of a
partial message: one `None` per chunk until the final chunk completes the
message, which is emitted with the retained header and the concatenated
payload. -/
theorem read_messages_fmt3_loop (C w : Nat) (hdr : ChunkMessageHeader)
    (pv : ChunkMessageHeader × Nat) (hC : 0 < C) :
    ∀ (rest acc : List Nat), rest ≠ [] →
    acc.length + rest.length = hdr.message_length →
    read_messages ((rest.length + C - 1) / C) ⟨[(3, ⟨hdr, acc⟩)], [(3, pv)], C, w⟩
        (chunk_rest (C - 1) rest) =
      .ok (List.replicate ((rest.length + C - 1) / C - 1) none ++
            [some ⟨hdr, acc ++ rest⟩],
           ⟨[], [(3, pv)], C, w⟩, []) := by
  have hmain : ∀ n : Nat, ∀ (rest acc : List Nat), rest.length = n → rest ≠ [] →
      acc.length + rest.length = hdr.message_length →
      read_messages ((rest.length + C - 1) / C) ⟨[(3, ⟨hdr, acc⟩)], [(3, pv)], C, w⟩
          (chunk_rest (C - 1) rest) =
        .ok (List.replicate ((rest.length + C - 1) / C - 1) none ++
              [some ⟨hdr, acc ++ rest⟩],
             ⟨[], [(3, pv)], C, w⟩, []) := by
    intro n
    induction n using Nat.strong_induction_on with
    | _ n ih =>
      intro rest acc hn hne hsum
      match rest with
      | [] => exact absurd rfl hne
      | b :: l =>
        have hCsub : C - 1 + 1 = C := by omega
        by_cases hle : l.length + 1 ≤ C
        · -- the chunk completes the message
          have htake : l.take (C - 1) = l := List.take_of_length_le (by omega)
          have hdrop : l.drop (C - 1) = [] := List.drop_eq_nil_of_le (by omega)
          have hceil : ((b :: l).length + C - 1) / C = 1 :=
            Nat.div_eq_of_lt_le (by simp only [List.length_cons]; omega)
              (by simp only [List.length_cons]; omega)
          have hcomp := read_message_fmt3_cont_complete C w hdr acc pv (b :: l) []
            (by simp only [List.length_cons] at hsum ⊢; omega)
            (by simp only [List.length_cons] at hsum ⊢; omega)
          simp only [List.append_nil] at hcomp
          rw [hceil]
          simp only [chunk_rest, fmt3_byte, htake, hdrop, List.append_nil]
          simp only [read_messages]
          rw [hcomp]
          simp
        · -- the chunk leaves a remainder
          have hlen_take : (l.take (C - 1)).length = C - 1 := by
            simp [List.length_take]
            omega
          have hlen_drop : (l.drop (C - 1)).length = l.length - (C - 1) := by
            simp [List.length_drop]
          have hdrop_ne : l.drop (C - 1) ≠ [] := by
            intro hx
            have := congrArg List.length hx
            simp [List.length_drop] at this
            omega
          have hceil : ((b :: l).length + C - 1) / C =
              ((l.drop (C - 1)).length + C - 1) / C + 1 := by
            rw [hlen_drop, List.length_cons]
            rw [show l.length + 1 + C - 1 = (l.length - (C - 1) + C - 1) + C from by omega]
            exact Nat.add_div_right _ hC
          have hloop_pos : 1 ≤ ((l.drop (C - 1)).length + C - 1) / C :=
            (Nat.one_le_div_iff hC).2 (by rw [hlen_drop]; omega)
          have hstep := read_message_fmt3_cont_incomplete C w hdr acc pv
            (b :: l.take (C - 1)) (chunk_rest (C - 1) (l.drop (C - 1)))
            (by simp only [List.length_cons, hlen_take]
                simp only [List.length_cons] at hsum
                omega)
            (by simp only [List.length_cons, hlen_take]
                simp only [List.length_cons] at hsum
                omega)
          have hrec := ih (l.drop (C - 1)).length
            (by rw [hlen_drop]; simp only [List.length_cons] at hn; omega)
            (l.drop (C - 1)) (acc ++ (b :: l.take (C - 1))) rfl hdrop_ne
            (by simp only [List.length_append, List.length_cons, hlen_take, hlen_drop]
                simp only [List.length_cons] at hsum
                omega)
          rw [hceil]
          simp only [chunk_rest, fmt3_byte]
          simp only [read_messages]
          rw [hstep]
          rw [show ((l.drop (C - 1)).length + C - 1) / C + 1 - 1 =
                ((l.drop (C - 1)).length + C - 1) / C from by omega]
          simp only [hrec]
          rw [show ((l.drop (C - 1)).length + C - 1) / C =
                (((l.drop (C - 1)).length + C - 1) / C - 1) + 1 from by omega]
          simp only [List.replicate_succ]
          simp only [List.append_assoc, List.cons_append]
          rw [show ((l.drop (C - 1)).length + C - 1) / C - 1 + 1 - 1 =
                ((l.drop (C - 1)).length + C - 1) / C - 1 from by omega]
          rw [List.take_append_drop]
  intro rest acc
  exact hmain rest.length rest acc rfl

/-- C2: a message of length `L > 0` transmitted on one chunk stream with
receive chunk size `C` is reassembled by repeated `read_message` calls:
each chunk appends `min(C, remaining)` bytes, every call before the last
returns `None`, and the `⌈L/C⌉`-th call returns exactly one complete
message whose payload is the original `L` bytes in order (`L < 2^24`
because the length travels in the 3-byte header field). -/
theorem C2_chunk_reassembly (C L ts tid msid : Nat) (payload : List Nat)
    (hC : 0 < C) (hL : 0 < L) (hlen : payload.length = L) (hL24 : L < 2 ^ 24)
    (hts : ts ≤ 0xFFFFFE) (htid : tid < 256) (hmsid : msid < 2 ^ 32) :
    read_messages ((L + C - 1) / C) (streamStateC C)
        (message_wire C ts L tid msid payload) =
      .ok (List.replicate ((L + C - 1) / C - 1) none ++
            [some ⟨⟨ts, L, tid, msid, 0⟩, payload⟩],
           ⟨[], [(3, (⟨ts, L, tid, msid, 0⟩, 0))], C, 128⟩, []) := by
  by_cases hle : L ≤ C
  · -- a single chunk
    have htake : payload.take C = payload := List.take_of_length_le (by omega)
    have hdrop : payload.drop C = [] := List.drop_eq_nil_of_le (by omega)
    have hceil : (L + C - 1) / C = 1 := Nat.div_eq_of_lt_le (by omega) (by omega)
    have h1 := read_message_fmt0_complete C 128 ts L tid msid payload [] []
      hts hL24 htid hmsid hlen hle
    simp only [List.append_nil] at h1
    rw [hceil]
    simp only [message_wire, htake, hdrop, chunk_rest, List.append_nil, streamStateC]
    simp only [read_messages]
    rw [h1]
    simp [alInsert]
  · -- first chunk, then the fmt-3 continuation loop
    have hlen_take : (payload.take C).length = C := by
      simp [List.length_take]
      omega
    have hlen_drop : (payload.drop C).length = L - C := by
      simp [List.length_drop, hlen]
    have hdrop_ne : payload.drop C ≠ [] := by
      intro hx
      have := congrArg List.length hx
      simp [List.length_drop, hlen] at this
      omega
    have hceil : (L + C - 1) / C = ((payload.drop C).length + C - 1) / C + 1 := by
      rw [hlen_drop]
      rw [show L + C - 1 = (L - C + C - 1) + C from by omega]
      exact Nat.add_div_right _ hC
    have hloop_pos : 1 ≤ ((payload.drop C).length + C - 1) / C :=
      (Nat.one_le_div_iff hC).2 (by rw [hlen_drop]; omega)
    have h1 := read_message_fmt0_incomplete C 128 ts L tid msid (payload.take C)
      (chunk_rest (C - 1) (payload.drop C)) [] hts hL24 htid hmsid hlen_take (by omega)
    have hloop := read_messages_fmt3_loop C 128 ⟨ts, L, tid, msid, 0⟩
      (⟨ts, L, tid, msid, 0⟩, 0) hC (payload.drop C) (payload.take C) hdrop_ne
      (by simp [hlen_take, hlen_drop]; omega)
    rw [hceil]
    simp only [message_wire, streamStateC, List.append_assoc]
    simp only [read_messages]
    rw [h1]
    simp only [alInsert]
    rw [hloop]
    rw [show ((payload.drop C).length + C - 1) / C =
          (((payload.drop C).length + C - 1) / C - 1) + 1 from by omega]
    simp only [List.replicate_succ]
    simp [List.take_append_drop]
    simp [List.replicate_succ]

/-- C2 (witness). -/
theorem C2_chunk_reassembly_witness :
    (0 : Nat) < 2 ∧ (0 : Nat) < 5 ∧ ([10, 20, 30, 40, 50] : List Nat).length = 5 ∧
    (5 : Nat) < 2 ^ 24 ∧ (7 : Nat) ≤ 0xFFFFFE ∧ (9 : Nat) < 256 ∧ (1 : Nat) < 2 ^ 32 ∧
    read_messages ((5 + 2 - 1) / 2) (streamStateC 2)
        (message_wire 2 7 5 9 1 [10, 20, 30, 40, 50]) =
      .ok (List.replicate ((5 + 2 - 1) / 2 - 1) none ++
            [some ⟨⟨7, 5, 9, 1, 0⟩, [10, 20, 30, 40, 50]⟩],
           ⟨[], [(3, (⟨7, 5, 9, 1, 0⟩, 0))], 2, 128⟩, []) :=
  ⟨by decide, by decide, by decide, by decide, by decide, by decide, by decide,
   C2_chunk_reassembly 2 5 7 9 1 [10, 20, 30, 40, 50] (by decide) (by decide) (by decide)
     (by decide) (by decide) (by decide) (by decide)⟩

/-- C7 (code evaluated at the failing input): `broadcast` collects the
indices of failing subscribers before any removal and then calls
`Vec::remove` on each collected index in turn, so the later removals act
on a shifted vector.  With subscribers `[A (write fails), B (write
fails), C (write succeeds)]` the result keeps failing client `B` (fd 11)
and removes the successful client `C`; with `[A, B]` both failing, the
second `Vec::remove(1)` indexes a one-element vector and panics. -/
theorem C7_broadcast_stale_indices :
    RtmpMediaStream.broadcast
        ⟨[⟨10, false, true, []⟩, ⟨11, false, true, []⟩, ⟨12, false, false, []⟩],
         none, true⟩ 0 18 ⟨⟨0, 1, 18, 5, 0⟩, [42]⟩ =
      .ok ⟨[⟨11, false, true, []⟩], none, true⟩ ∧
    RtmpMediaStream.broadcast
        ⟨[⟨10, false, true, []⟩, ⟨11, false, true, []⟩], none, true⟩
        0 18 ⟨⟨0, 1, 18, 5, 0⟩, [42]⟩ = .error .panicked :=
  ⟨rfl, rfl⟩

theorem alLookup_alInsert {κ β : Type} [DecidableEq κ] (m : List (κ × β)) (k : κ) (v : β) :
    alLookup (alInsert m k v) k = some v := by
  induction m with
  | nil => simp [alInsert, alLookup]
  | cons p m ih =>
    obtain ⟨a, b⟩ := p
    by_cases h : a = k <;> simp [alInsert, alLookup, h, ih]

theorem alInsert_alInsert {κ β : Type} [DecidableEq κ] (m : List (κ × β)) (k : κ)
    (v v' : β) : alInsert (alInsert m k v) k v' = alInsert m k v' := by
  induction m with
  | nil => simp [alInsert]
  | cons p m ih =>
    obtain ⟨a, b⟩ := p
    by_cases h : a = k <;> simp [alInsert, h, ih]

/-- C8 (counterexample): a subscriber's `deleteStream` removes the
`MediaStream` entry even though the connection is not the publisher.
Connection A (fd 10) publishes "live"; connection B (fd 11) plays "live"
(so B is a subscriber, not the publisher); B then issues `deleteStream`
and the registry entry of "live" is gone (the claim says a subscriber's
deleteStream does not remove it). -/
theorem C8_subscriber_delete_counterexample :
    (handle_publish ⟨[], [], 10, [], 128⟩ (encode_amf_messages
        [.number 0, .null, .string (ascii "live"), .string (ascii "live")])).map
      (fun s => (s.stream_name, s.media_streams)) =
      .ok (ascii "live", [(ascii "live", ⟨[], none, true⟩)]) ∧
    (handle_play ⟨[(ascii "live", ⟨[], none, true⟩)], [], 11, [], 128⟩
        (encode_amf_messages [.number 0, .null, .string (ascii "live")])).map
      (fun s => (s.stream_name, s.media_streams)) =
      .ok (ascii "live", [(ascii "live", ⟨[⟨11, false, false, []⟩], none, true⟩)]) ∧
    (handle_command_message
        ⟨[(ascii "live", ⟨[⟨11, false, false, []⟩], none, true⟩)], ascii "live", 11, [], 128⟩
        ⟨⟨0, 0, 20, 0, 0⟩, encode_amf_messages [.string (ascii "deleteStream"), .number 0]⟩).map
      (fun p => (p.1, alLookup p.2.media_streams (ascii "live"))) =
      .ok (true, none) :=
  ⟨rfl, rfl, rfl⟩

/-- C8 (amended): on a `deleteStream` command the registry entry for the
connection's current `stream_name` is removed unconditionally — whether
the connection is the stream's publisher or one of its subscribers — the
connection keeps its `stream_name` (no role state exists to be cleared),
and the dispatcher reports termination (`true`), after which `serve`
returns and the session ends. -/
theorem C8_delete_stream_unconditional (srv : RtmpServer) (hdr : ChunkMessageHeader)
    (rest : List Nat) :
    handle_command_message srv
        ⟨hdr, encode_amf_messages [.string (ascii "deleteStream")] ++ rest⟩ =
      .ok (true, { srv with media_streams := alErase srv.media_streams srv.stream_name }) := by
  have hwf : wfAmf (.string (ascii "deleteStream")) = true := rfl
  have hm := (decode_encode_master
      ((encode_amf_messages [.string (ascii "deleteStream")] ++ rest).length + 1)).1
    (.string (ascii "deleteStream")) rest hwf
    (by simp [encode_amf_messages, encode_amf_values]; omega)
  simp only [encode_amf_messages, encode_amf_values, List.append_nil] at hm ⊢
  simp only [handle_command_message, decode_amf_message_run, hm]
  norm_num [ascii, handle_delete_stream]
  rw [if_neg (by decide)]

/-- C3 (counterexample): the claim that a denied publish is answered with
level "error" and leaves the connection's stream association unchanged is
false.  On a registry where "live" is already published, a publish for
"live" from a connection whose `stream_name` is "other" is answered with
`on_status(Denied, success := true)` — whose information object carries
level "status", not "error" — and the connection's `stream_name` is
overwritten to "live" anyway. -/
theorem C3_publish_denied_counterexample :
    (handle_publish ⟨[(ascii "live", ⟨[], none, true⟩)], ascii "other", 11, [], 128⟩
        (encode_amf_messages
          [.number 0, .null, .string (ascii "live"), .string (ascii "live")])).map
      (fun s => (s.stream_name, s.outbox.map SentMessage.message)) =
      .ok (ascii "live", [on_status (ascii "NetStream.Publish.Denied") true]) ∧
    on_status (ascii "NetStream.Publish.Denied") true =
      encode_amf_messages [.string (ascii "onStatus"), .number 0, .null,
        .object [(ascii "level", .string (ascii "status")),
                 (ascii "code", .string (ascii "NetStream.Publish.Denied"))]] ∧
    on_status (ascii "NetStream.Publish.Denied") true ≠
      on_status (ascii "NetStream.Publish.Denied") false ∧
    ascii "live" ≠ ascii "other" :=
  ⟨rfl, rfl, by decide, by decide⟩

/-- C3 (amended): `handle_publish` looks up (or creates) the media stream
of the publishing name; when it already has an active publisher the
response is `on_status("NetStream.Publish.Denied")` called with
`success = true` — i.e. level "status", not "error" — and the stream is
not marked published again; only when no publisher is active is
`published` set and `NetStream.Publish.Start` sent (also with level
"status").  In both branches the connection's `stream_name` is
overwritten with the publishing name. -/
theorem C3_publish_denied_level_status (media : List (List Nat × RtmpMediaStream))
    (oldName : List Nat) (fd w tx : Nat) (outbox : List SentMessage)
    (name ptype : List Nat)
    (htx : tx < 2 ^ 64) (hname : name.length < 65536) (hptype : ptype.length < 65536) :
    handle_publish ⟨media, oldName, fd, outbox, w⟩
        (encode_amf_messages [.number tx, .null, .string name, .string ptype]) =
      .ok ⟨alInsert media name
            (if ((alLookup media name).getD emptyMediaStream).published then
              (alLookup media name).getD emptyMediaStream
            else { (alLookup media name).getD emptyMediaStream with published := true }),
           name, fd,
           outbox ++ [⟨3, 0, 0, 20,
             on_status (if ((alLookup media name).getD emptyMediaStream).published then
                 ascii "NetStream.Publish.Denied"
               else ascii "NetStream.Publish.Start") true⟩],
           w⟩ := by
  simp only [encode_amf_messages, encode_amf_values]
  simp only [handle_publish, decode_amf_number_enc tx _ htx, decode_amf_null_enc,
             decode_amf_string_enc name _ hname, decode_amf_string_enc ptype _ hptype]
  by_cases hp : ((alLookup media name).getD emptyMediaStream).published <;>
    simp [hp]

/-- C3 (witness). -/
theorem C3_publish_witness :
    (0 : Nat) < 2 ^ 64 ∧ (ascii "live").length < 65536 ∧ (ascii "live").length < 65536 ∧
    handle_publish ⟨[(ascii "live", ⟨[], none, true⟩)], ascii "other", 11, [], 128⟩
        (encode_amf_messages
          [.number 0, .null, .string (ascii "live"), .string (ascii "live")]) =
      .ok ⟨alInsert [(ascii "live", ⟨[], none, true⟩)] (ascii "live")
            (if ((alLookup [(ascii "live", ⟨[], none, true⟩)] (ascii "live")).getD
                emptyMediaStream).published then
              (alLookup [(ascii "live", ⟨[], none, true⟩)] (ascii "live")).getD
                emptyMediaStream
            else { (alLookup [(ascii "live", ⟨[], none, true⟩)] (ascii "live")).getD
                emptyMediaStream with published := true }),
           ascii "live", 11,
           [] ++ [⟨3, 0, 0, 20,
             on_status (if ((alLookup [(ascii "live", ⟨[], none, true⟩)]
                   (ascii "live")).getD emptyMediaStream).published then
                 ascii "NetStream.Publish.Denied"
               else ascii "NetStream.Publish.Start") true⟩],
           128⟩ :=
  ⟨by decide, by decide, by decide,
   C3_publish_denied_level_status [(ascii "live", ⟨[], none, true⟩)] (ascii "other")
     11 128 0 [] (ascii "live") (ascii "live") (by decide) (by decide) (by decide)⟩

theorem decode_amf_ecma_array_run_enc (es : List (List Nat × AmfObject)) (rest : List Nat)
    (hwf : wfProps es = true) (hcount : es.length < 2 ^ 32) :
    decode_amf_ecma_array_run true (encode_amf_message_impl (.ecmaArray es) ++ rest) =
      .ok (es, rest) := by
  have hi := (decode_encode_master
      ((encode_amf_message_impl (.ecmaArray es) ++ rest).length + 1)).2.2.2.2.2.2.1
    true (es.map some) rest (wfItems_map_some es hwf)
    (by simpa using hcount)
    (by rw [encode_ecma_items_map_some]; simp [encode_amf_message_impl, u32be]; omega)
  simp only [decode_amf_ecma_array_run]
  simpa [encode_amf_message_impl, encode_ecma_items_map_some, filterMap_id_map_some,
         List.append_assoc] using hi

theorem broadcast_attempts (m : SentMessage) (k : Nat) (cs : List RtmpClient)
    (h : ∀ c ∈ cs, c.write_fails = false) :
    (List.enumFrom k cs).map (fun p =>
        if p.2.paused then (p.2, (none : Option Nat))
        else match clientSend p.2 m with
          | some c => (c, (none : Option Nat))
          | none => (p.2, some p.1)) =
      (clientsAfterSend cs m).map (fun c => (c, (none : Option Nat))) := by
  induction cs generalizing k with
  | nil => rfl
  | cons c cs ih =>
    have hc : c.write_fails = false := h c (List.mem_cons_self c cs)
    have hrest : ∀ c' ∈ cs, c'.write_fails = false :=
      fun c' hc' => h c' (List.mem_cons_of_mem c hc')
    have hstep : List.enumFrom k (c :: cs) = (k, c) :: List.enumFrom (k + 1) cs := rfl
    rw [hstep, List.map_cons, ih (k + 1) hrest]
    simp only [clientsAfterSend, List.map_cons]
    congr 1
    by_cases hp : c.paused <;> simp [clientSend, hc, hp]

theorem broadcast_all_ok (ms : RtmpMediaStream) (tsv tid : Nat) (m : Message)
    (h : ∀ c ∈ ms.clients, c.write_fails = false) :
    ms.broadcast tsv tid m =
      .ok { ms with clients := (clientsAfterSend ms.clients
        ⟨3, m.header.message_stream_id, tsv, tid, m.message⟩) } := by
  have ha := broadcast_attempts
    ⟨3, m.header.message_stream_id, tsv, tid, m.message⟩ 0 ms.clients h
  have hfst : (Prod.fst ∘ fun c : RtmpClient => (c, (none : Option Nat))) = id := rfl
  have hsnd : ∀ l : List RtmpClient,
      List.filterMap (Prod.snd ∘ fun c : RtmpClient => (c, (none : Option Nat))) l = [] := by
    intro l
    induction l with
    | nil => rfl
    | cons a l ih => simp [ih]
  simp [RtmpMediaStream.broadcast, List.enum, ha, List.filterMap_map, hfst, hsnd,
        removeIndices]

/-- C4 (counterexample): the claim that the cached metadata is the message
with the `@setDataFrame` wrapper stripped is false: `handle_data_message`
caches the *original* message, wrapper included, and the wrapped bytes
differ from the stripped ones. -/
theorem C4_metadata_counterexample :
    (handle_data_message ⟨[(ascii "live", ⟨[], none, true⟩)], ascii "live", 10, [], 128⟩
        ⟨⟨77, 0, 18, 5, 0⟩, dataFramePayload [(ascii "w", .number 3)]⟩).map
      (fun s => alLookup s.media_streams (ascii "live")) =
      .ok (some ⟨[], some ⟨⟨77, 0, 18, 5, 0⟩, dataFramePayload [(ascii "w", .number 3)]⟩,
                 true⟩) ∧
    dataFramePayload [(ascii "w", .number 3)] ≠
      encode_amf_messages [.string (ascii "onMetaData"), .ecmaArray [(ascii "w", .number 3)]] :=
  ⟨rfl, by decide⟩

/-- C4 (amended): on a well-formed `@setDataFrame`/`onMetaData` data
message, `handle_data_message` broadcasts the *original* message bytes
(wrapper included) to every non-paused subscriber with timestamp 0 and
type 18, and caches the *original* message — wrapper, header timestamp
and message stream id included — as the stream's metadata; a later `play`
for the stream replays exactly those cached bytes (with the cached
header's timestamp and message stream id) to the new subscriber. -/
theorem C4_metadata_cached_unstripped
    (media : List (List Nat × RtmpMediaStream)) (name : List Nat) (ms : RtmpMediaStream)
    (fd w fd2 w2 tx2 : Nat) (outbox outbox2 : List SentMessage)
    (oldname2 : List Nat) (msgHdr : ChunkMessageHeader)
    (es : List (List Nat × AmfObject))
    (hwf : wfProps es = true) (hcount : es.length < 2 ^ 32)
    (hms : alLookup media name = some ms)
    (hok : ∀ c ∈ ms.clients, c.write_fails = false)
    (htx2 : tx2 < 2 ^ 64) (hn : name.length < 65536) :
    handle_data_message ⟨media, name, fd, outbox, w⟩ ⟨msgHdr, dataFramePayload es⟩ =
      .ok ⟨alInsert media name
            ({ ms with
               clients := clientsAfterSend ms.clients
                 ⟨3, msgHdr.message_stream_id, 0, 18, dataFramePayload es⟩,
               metadata := some ⟨msgHdr, dataFramePayload es⟩ }),
           name, fd, outbox, w⟩ ∧
    ∃ srv2 : RtmpServer,
      handle_play
          ⟨alInsert media name
            ({ ms with
               clients := clientsAfterSend ms.clients
                 ⟨3, msgHdr.message_stream_id, 0, 18, dataFramePayload es⟩,
               metadata := some ⟨msgHdr, dataFramePayload es⟩ }),
           oldname2, fd2, outbox2, w2⟩
          (encode_amf_messages [.number tx2, .null, .string name]) = .ok srv2 ∧
      (⟨3, msgHdr.message_stream_id, msgHdr.timestamp, 18, dataFramePayload es⟩ :
        SentMessage) ∈ srv2.outbox := by
  have h1 := decode_amf_string_enc (ascii "@setDataFrame")
    (encode_amf_message_impl (.string (ascii "onMetaData")) ++
      (encode_amf_message_impl (.ecmaArray es) ++ [])) (by decide)
  have h2 := decode_amf_string_enc (ascii "onMetaData")
    (encode_amf_message_impl (.ecmaArray es) ++ []) (by decide)
  have h3 := decode_amf_ecma_array_run_enc es [] hwf hcount
  have hb := broadcast_all_ok ms 0 18 ⟨msgHdr, dataFramePayload es⟩ hok
  constructor
  · simp only [dataFramePayload, encode_amf_messages, encode_amf_values] at h3 hb ⊢
    simp only [handle_data_message, h1, h2, h3, RtmpServer.broadcast, hms, hb,
               alLookup_alInsert, alInsert_alInsert]
    simp
  · simp only [handle_play, encode_amf_messages, encode_amf_values,
               decode_amf_number_enc tx2 _ htx2, decode_amf_null_enc,
               decode_amf_string_enc name _ hn, alLookup_alInsert, Option.getD_some]
    refine ⟨_, rfl, ?_⟩
    simp

/-- C4 (witness). -/
theorem C4_metadata_witness :
    wfProps [(ascii "w", AmfObject.number 3)] = true ∧
    ([(ascii "w", AmfObject.number 3)] : List (List Nat × AmfObject)).length < 2 ^ 32 ∧
    alLookup [(ascii "live", (⟨[], none, true⟩ : RtmpMediaStream))] (ascii "live") =
      some ⟨[], none, true⟩ ∧
    (∀ c ∈ ((⟨[], none, true⟩ : RtmpMediaStream)).clients, c.write_fails = false) ∧
    (0 : Nat) < 2 ^ 64 ∧ (ascii "live").length < 65536 ∧
    (handle_data_message ⟨[(ascii "live", ⟨[], none, true⟩)], ascii "live", 10, [], 128⟩
        ⟨⟨77, 0, 18, 5, 0⟩, dataFramePayload [(ascii "w", AmfObject.number 3)]⟩ =
      .ok ⟨alInsert [(ascii "live", ⟨[], none, true⟩)] (ascii "live")
            ({ (⟨[], none, true⟩ : RtmpMediaStream) with
               clients := clientsAfterSend [] ⟨3, 5, 0, 18,
                 dataFramePayload [(ascii "w", AmfObject.number 3)]⟩,
               metadata := some ⟨⟨77, 0, 18, 5, 0⟩,
                 dataFramePayload [(ascii "w", AmfObject.number 3)]⟩ }),
           ascii "live", 10, [], 128⟩ ∧
    ∃ srv2 : RtmpServer,
      handle_play
          ⟨alInsert [(ascii "live", ⟨[], none, true⟩)] (ascii "live")
            ({ (⟨[], none, true⟩ : RtmpMediaStream) with
               clients := clientsAfterSend [] ⟨3, 5, 0, 18,
                 dataFramePayload [(ascii "w", AmfObject.number 3)]⟩,
               metadata := some ⟨⟨77, 0, 18, 5, 0⟩,
                 dataFramePayload [(ascii "w", AmfObject.number 3)]⟩ }),
           [], 11, [], 128⟩
          (encode_amf_messages [.number 0, .null, .string (ascii "live")]) = .ok srv2 ∧
      (⟨3, 5, 77, 18, dataFramePayload [(ascii "w", AmfObject.number 3)]⟩ :
        SentMessage) ∈ srv2.outbox) :=
  ⟨rfl, by decide, rfl, by decide, by decide, by decide,
   C4_metadata_cached_unstripped [(ascii "live", ⟨[], none, true⟩)] (ascii "live")
     ⟨[], none, true⟩ 10 128 11 128 0 [] [] [] ⟨77, 0, 18, 5, 0⟩
     [(ascii "w", AmfObject.number 3)] rfl (by decide) rfl (by decide) (by decide) (by decide)⟩

/-- C5 (counterexample): the claim that the second message's timestamp is
`2·T0` fails at `T0 = 0x800000`: the code reduces the recomputed
timestamp modulo `0xFFFFFF`, so the second emitted message carries
timestamp `(0x800000 + 0x800000) % 0xFFFFFF = 1`, not `0x1000000`. -/
theorem C5_fmt3_timestamp_counterexample :
    read_messages 2 newMessageStream
        (fmt0_chunk_header 0x800000 1 9 0 ++ ([7] ++ (0xC3 :: [8]))) =
      .ok ([some ⟨⟨0x800000, 1, 9, 0, 0⟩, [7]⟩, some ⟨⟨1, 1, 9, 0, 0x800000⟩, [8]⟩],
           ⟨[], [(3, (⟨1, 1, 9, 0, 0x800000⟩, 3))], 128, 128⟩, []) ∧
    (1 : Nat) ≠ 2 * 0x800000 :=
  ⟨by rfl, by decide⟩

/-- C5 (amended): after a fmt-0 chunk with absolute timestamp `T0` whose
chunk completes its one-byte message, a fmt-3 chunk that starts and
completes a new message is emitted with timestamp
`(T0 + T0) % 0xFFFFFF` (the last delta `T0` is reapplied and the sum is
reduced modulo `0xFFFFFF`), which equals `2·T0` exactly when
`2·T0 < 0xFFFFFF`. -/
theorem C5_fmt3_timestamp_reapplied (T0 tid msid b1 b2 : Nat)
    (ht : T0 ≤ 0xFFFFFE) (htid : tid < 256) (hmsid : msid < 2 ^ 32) :
    read_messages 2 newMessageStream
        (fmt0_chunk_header T0 1 tid msid ++ ([b1] ++ (0xC3 :: [b2]))) =
      .ok ([some ⟨⟨T0, 1, tid, msid, 0⟩, [b1]⟩,
            some ⟨⟨(T0 + T0) % 0xFFFFFF, 1, tid, msid, T0⟩, [b2]⟩],
           ⟨[], [(3, (⟨(T0 + T0) % 0xFFFFFF, 1, tid, msid, T0⟩, 3))], 128, 128⟩, []) := by
  have h1 := read_message_fmt0_complete 128 128 T0 1 tid msid [b1] (0xC3 :: [b2]) []
    ht (by norm_num) htid hmsid rfl (by norm_num)
  have h2 := read_message_fmt3_new_complete 128 128 ⟨T0, 1, tid, msid, 0⟩ [b2] [] rfl
    (by norm_num)
  simp only [List.append_nil] at h2
  simp only [read_messages, newMessageStream]
  rw [h1]
  simp only [alInsert]
  rw [h2]

/-- C5 (witness). -/
theorem C5_fmt3_timestamp_witness :
    (7122 : Nat) ≤ 0xFFFFFE ∧ (9 : Nat) < 256 ∧ (1 : Nat) < 2 ^ 32 ∧
    read_messages 2 newMessageStream
        (fmt0_chunk_header 7122 1 9 1 ++ ([7] ++ (0xC3 :: [8]))) =
      .ok ([some ⟨⟨7122, 1, 9, 1, 0⟩, [7]⟩,
            some ⟨⟨(7122 + 7122) % 0xFFFFFF, 1, 9, 1, 7122⟩, [8]⟩],
           ⟨[], [(3, (⟨(7122 + 7122) % 0xFFFFFF, 1, 9, 1, 7122⟩, 3))], 128, 128⟩, []) :=
  ⟨by decide, by decide, by decide,
   C5_fmt3_timestamp_reapplied 7122 9 1 7 8 (by decide) (by decide) (by decide)⟩

/-- C6 (witness). -/
theorem C6_ecma_witness :
    wfItems [some (ascii "k", AmfObject.null), none] = true ∧
    ([some (ascii "k", AmfObject.null), (none : Option (List Nat × AmfObject))].length
      < 2 ^ 32) ∧
    (ascii "q").isEmpty = false ∧ (ascii "q").length < 65536 ∧
    wfAmf (.boolean true) = true ∧
    (decode_amf_ecma_array_run false
        (u32be 2 ++ (encode_ecma_items [some (ascii "k", AmfObject.null), none] ++
          0 :: 0 :: 9 :: [7, 7])) =
      .ok ([(ascii "k", AmfObject.null)], [7, 7]) ∧
     decode_amf_ecma_array_run false
        (u32be 2 ++ (encode_ecma_items [some (ascii "k", AmfObject.null), none] ++
          (u16be (ascii "q").length ++ (ascii "q" ++
            (encode_amf_message_impl (.boolean true) ++ [7, 7]))))) =
      .error .amfIncorrectEndOfEcmaArray) :=
  ⟨rfl, by decide, rfl, by decide, rfl,
   C6_ecma_count_authoritative [some (ascii "k", AmfObject.null), none] [7, 7]
     (ascii "q") (.boolean true) rfl (by decide) rfl (by decide) rfl⟩

end Rtmp
